import Mathlib

/-!
prometheus_shelly_exporter: collectors for Shelly 3EM, H&T and H&T Gen3

A shallow embedding of the three collectors (`threeem/3em.go`, `ht/ht.go`,
`htgen3/htgen3.go`) followed by theorems about them.

Modelling conventions

* Go `string` and `[]byte` are `String`.  Go compares strings bytewise; on
  UTF-8 text that is the lexicographic order of the code points, which is
  `stringLess` below.
* `float64` is a type parameter `F`: the collectors only store and forward
  such values.  The constants `0` and `1` and the conversion `float64(int)`
  come from `Zero F`, `One F` and `IntCast F`.
* A channel of metrics written by a scrape is the list of metrics sent, in
  the order of sending.
* A Go `error` is `Option String` (the error text), `nil` being `none`.
* A run-time panic (index out of range) is `none` of an `Option` result.
* Functions of other libraries (`byteconv.ParseFloat`, `json.Unmarshal`,
  `gjson.GetBytes`, the `%q` verb of `fmt`) are parameters.
* The background goroutine of each `NewCollector` is the left fold of its
  loop body over the messages received; log calls have no effect on the
  state and are left out, and so is the `time` field of `lastMSG`, which is
  written but never read.
-/

/-! ## Go standard library: package `strings`, `sort.Slice` -/

namespace strings

/-- Go `strings.Contains(s, substr)`. -/
def Contains (s substr : String) : Bool :=
  decide (substr.data <:+: s.data)

/-- Go `strings.HasSuffix(s, suffix)`. -/
def HasSuffix (s suffix : String) : Bool :=
  decide (suffix.data <:+ s.data)

/-- Go `strings.Split(s, sep)` for a separator `sep` of one character. -/
def Split (s : String) (sep : Char) : List String :=
  (s.data.splitOn sep).map String.mk

/-- Go `strings.CutPrefix(s, p)`: the rest of `s` after the leading `p` and
`true`, or `s` itself and `false` when `s` does not start with `p`. -/
def CutPrefix (s p : String) : String × Bool :=
  if p.data <+: s.data then (String.mk (s.data.drop p.data.length), true) else (s, false)

end strings

/-- Go `a < b` on strings. -/
def stringLess (a b : String) : Bool :=
  decide (a.data < b.data)

/-- Go slice indexing `xs[i]` with an `int` index: `none` is the panic
"index out of range". -/
def goIndex {α : Type} (xs : List α) (i : Int) : Option α :=
  if i < 0 then none else xs[i.toNat]?

/-- Go `sort.Slice(xs, less)`: `xs` rearranged so that no element is `less`
than one that precedes it.  The order among elements none of which is
`less` than the other is not fixed by Go; the entries sorted here have
distinct keys, so that case does not arise. -/
def sortSlice {α : Type} (less : α → α → Bool) (xs : List α) : List α :=
  xs.insertionSort (fun a b => less b a = false)

/-! ## Package `prometheus` and `mqtt.Message` -/

namespace prometheus

/-- The part of `prometheus.Desc` set by `NewDesc`. -/
structure Desc where
  fqName : String
  help : String
  variableLabels : List String
deriving DecidableEq

/-- Go `prometheus.ValueType`. -/
inductive ValueType where
  | CounterValue
  | GaugeValue
  | UntypedValue
deriving DecidableEq

/-- A constant metric: what `MustNewConstMetric` builds. -/
structure Metric (F : Type) where
  desc : Desc
  valueType : ValueType
  value : F
  labelValues : List String
deriving DecidableEq

/-- Go `prometheus.NewDesc(fqName, help, variableLabels, nil)`. -/
def NewDesc (fqName help : String) (variableLabels : List String) : Desc :=
  { fqName := fqName, help := help, variableLabels := variableLabels }

/-- Go `prometheus.MustNewConstMetric(desc, valueType, value, labelValues...)`.
Every call in the collectors passes as many label values as `desc` has
labels (`collectEntry_label_count`, `ht_Collect_label_count`,
`gen3_Collect_label_count` below), so the panic of the original, raised on
a wrong number of label values, cannot occur. -/
def MustNewConstMetric {F : Type} (desc : Desc) (valueType : ValueType) (value : F)
    (labelValues : List String) : Metric F :=
  { desc := desc, valueType := valueType, value := value, labelValues := labelValues }

end prometheus

namespace mqtt

/-- The two methods of `mqtt.Message` the collectors call: `Topic()` and
`Payload()`. -/
structure Message where
  topic : String
  payload : String
deriving DecidableEq

end mqtt

open prometheus

/-! ## Package `threeem` (`threeem/3em.go`) -/

namespace threeem

/-- Go `lo.Entry[string, float64]`. -/
structure Entry (F : Type) where
  Key : String
  Value : F
deriving DecidableEq

/-- Go `map[string]float64`: a list of bindings with distinct keys.  The
order of the list is the order in which `range` happens to visit the map. -/
abbrev TopicMap (F : Type) : Type := AList (fun _ : String => F)

/-- The mutable part of `Collector`: `topicValueCollector`, topic => value. -/
structure Collector (F : Type) where
  topicValueCollector : TopicMap F

def powerDesc : Desc :=
  NewDesc "shelly3em_power" "instantaneous active power in Watts" ["device", "phase"]

def pfDesc : Desc :=
  NewDesc "shelly3em_pf" "power factor (dimensionless)" ["device", "phase"]

def currentDesc : Desc :=
  NewDesc "shelly3em_current" "current in Amps" ["device", "phase"]

def voltageDesc : Desc :=
  NewDesc "shelly3em_voltage" "grid voltage in Volts" ["device", "phase"]

def totalDesc : Desc :=
  NewDesc "shelly3em_total"
    "total energy in Wh (accumulated in device's non-volatile memory)" ["device", "phase"]

def totalReturnedDesc : Desc :=
  NewDesc "shelly3em_total_returned"
    "total energy returned to the grid in Wh (accumulated in device's non-volatile memory)"
    ["device", "phase"]

def energyDesc : Desc :=
  NewDesc "shelly3em_energy" "energy counter in Watt-minute since last report"
    ["device", "phase"]

def energyReturnedDesc : Desc :=
  NewDesc "shelly3em_energy_returned"
    "energy returned to the grid in Watt-minute since last report" ["device", "phase"]

def upDesc : Desc :=
  NewDesc "shelly3em_up" "Whether scrape was successful" ["last_error"]

/-- Go `lo.Entries(m)`: the bindings of the map as a slice, in map order. -/
def Entries {F : Type} (m : TopicMap F) : List (Entry F) :=
  m.entries.map (fun e => { Key := e.1, Value := e.2 })

/-- The comparison handed to `sort.Slice`: `entries[i].Key < entries[j].Key`. -/
def entryLess {F : Type} (a b : Entry F) : Bool :=
  stringLess a.Key b.Key

/-- `Collector.swapTopicValueCollector`: the sorted entries of the live map,
and the collector with a fresh empty map in its place. -/
def swapTopicValueCollector {F : Type} (c : Collector F) : List (Entry F) × Collector F :=
  let lm := c.topicValueCollector
  let c1 : Collector F := { c with topicValueCollector := ∅ }
  let entries := Entries lm
  (sortSlice entryLess entries, c1)

/-- `NewCollector`, without its goroutine: the map is `nil` in the literal
and made by the first `swapTopicValueCollector`. -/
def NewCollector {F : Type} : Collector F :=
  (swapTopicValueCollector { topicValueCollector := ∅ }).2

/-- One turn of the goroutine of `NewCollector` on a received message. -/
def messageLoopStep {F : Type} (parseFloat : String → Except String F)
    (c : Collector F) (msg : mqtt.Message) : Collector F :=
  if strings.Contains msg.topic "/emeter/" = false then c
  else
    match parseFloat msg.payload with
    | .error _ => c
    | .ok f64 => { c with topicValueCollector := c.topicValueCollector.insert msg.topic f64 }

/-- The goroutine of `NewCollector` run over the messages of the channel. -/
def messageLoop {F : Type} (parseFloat : String → Except String F)
    (c : Collector F) (msgs : List mqtt.Message) : Collector F :=
  msgs.foldl (messageLoopStep parseFloat) c

/-- `getMsgInfo`: device, phase and last path element of a topic such as
`shellies/shellyem3-washtumbler/emeter/0/voltage`. -/
def getMsgInfo (topic : String) : Option (String × String × String) := do
  let topicPaths := strings.Split topic '/'
  let p1 ← goIndex topicPaths 1
  let deviceID := (strings.CutPrefix p1 "shellyem3-").1
  let phaseID ← goIndex topicPaths ((topicPaths.length : Int) - 2)
  let lastPath ← goIndex topicPaths ((topicPaths.length : Int) - 1)
  pure (deviceID, phaseID, lastPath)

/-- The body of the `for` loop of `Collector.collect`: the metrics sent for
one entry. -/
def collectEntry {F : Type} (kv : Entry F) : Option (List (Metric F)) := do
  let (deviceID, phaseID, lastPath) ← getMsgInfo kv.Key
  if lastPath = "energy" then
    pure [MustNewConstMetric energyDesc .GaugeValue kv.Value [deviceID, phaseID]]
  else if lastPath = "returned_energy" then
    pure [MustNewConstMetric energyReturnedDesc .GaugeValue kv.Value [deviceID, phaseID]]
  else if lastPath = "total" then
    pure [MustNewConstMetric totalDesc .GaugeValue kv.Value [deviceID, phaseID]]
  else if lastPath = "total_returned" then
    pure [MustNewConstMetric totalReturnedDesc .GaugeValue kv.Value [deviceID, phaseID]]
  else if lastPath = "power" then
    pure [MustNewConstMetric powerDesc .GaugeValue kv.Value [deviceID, phaseID]]
  else if lastPath = "voltage" then
    pure [MustNewConstMetric voltageDesc .GaugeValue kv.Value [deviceID, phaseID]]
  else if lastPath = "current" then
    pure [MustNewConstMetric currentDesc .GaugeValue kv.Value [deviceID, phaseID]]
  else if lastPath = "pf" then
    pure [MustNewConstMetric pfDesc .GaugeValue kv.Value [deviceID, phaseID]]
  else
    pure []

/-- The `for` loop of `Collector.collect` over the snapshot. -/
def collectLoop {F : Type} : List (Entry F) → Option (List (Metric F))
  | [] => some []
  | kv :: tv => do
    let ms ← collectEntry kv
    let rest ← collectLoop tv
    pure (ms ++ rest)

/-- `Collector.collect`: the metrics sent, the error returned (always `nil`)
and the collector afterwards. -/
def collect {F : Type} (c : Collector F) :
    Option (List (Metric F) × Option String × Collector F) := do
  let (tv, c1) := swapTopicValueCollector c
  let ms ← collectLoop tv
  pure (ms, none, c1)

/-- `Collector.Collect`: the metrics of `collect` followed by `shelly3em_up`. -/
def Collect {F : Type} [Zero F] [One F] (c : Collector F) :
    Option (List (Metric F) × Collector F) := do
  let (ms, err, c1) ← collect c
  match err with
  | none => pure (ms ++ [MustNewConstMetric upDesc .GaugeValue 1 [""]], c1)
  | some e => pure (ms ++ [MustNewConstMetric upDesc .GaugeValue 0 [e]], c1)

/-- The invariant of the live map: every key is a topic that contains
`/emeter/`, as the goroutine stores no other. -/
def EmeterKeys {F : Type} (c : Collector F) : Prop :=
  ∀ k ∈ c.topicValueCollector.keys, strings.Contains k "/emeter/" = true

/-- A stand-in for `byteconv.ParseFloat` in the examples, with `Int` for
`float64`: it reads an unsigned decimal integer and fails on anything else. -/
def exampleParseFloat (s : String) : Except String Int :=
  if s.data ≠ [] ∧ s.data.all Char.isDigit = true then
    .ok (s.data.foldl (fun n ch => 10 * n + ((ch.toNat : Int) - 48)) 0)
  else .error "invalid syntax"

/-- The case labels of the `switch` in `collect`. -/
def knownMeasurements : List String :=
  ["energy", "returned_energy", "total", "total_returned", "power", "voltage", "current", "pf"]

end threeem

/-! ## Package `ht` (`ht/ht.go`) -/

namespace ht

/-- The field `Tmp` of `Info`. -/
structure InfoTmp (F : Type) where
  Value : F
  Units : String
  TC : F
  TF : F
  IsValid : Bool
deriving DecidableEq

/-- The field `Hum` of `Info`. -/
structure InfoHum (F : Type) where
  Value : F
  IsValid : Bool
deriving DecidableEq

/-- The field `Bat` of `Info`. -/
structure InfoBat (F : Type) where
  Value : Int
  Voltage : F
deriving DecidableEq

/-- Go `Info`: the decoded payload of an `/info` message. -/
structure Info (F : Type) where
  Mac : String
  IsValid : Bool
  Tmp : InfoTmp F
  Hum : InfoHum F
  Bat : InfoBat F
deriving DecidableEq

/-- The zero value of `Info`, which `var info Info` declares. -/
def Info.zero {F : Type} [Zero F] : Info F :=
  { Mac := "", IsValid := false,
    Tmp := { Value := 0, Units := "", TC := 0, TF := 0, IsValid := false },
    Hum := { Value := 0, IsValid := false },
    Bat := { Value := 0, Voltage := 0 } }

/-- Go `lastMSG`, without its `time`. -/
structure lastMSG where
  topic : String
  msg : mqtt.Message
deriving DecidableEq

/-- The mutable part of `Collector`. -/
structure Collector where
  lastMSG : lastMSG
deriving DecidableEq

def tmpDesc : Desc :=
  NewDesc "shellyht_temperature" "Sensor temperature" ["device", "unit"]

def humDesc : Desc :=
  NewDesc "shellyht_humidity" "Sensor humidity" ["device", "unit"]

def batDesc : Desc :=
  NewDesc "shellyht_battery" "Sensor battery" ["device", "unit"]

def upDesc : Desc :=
  NewDesc "shellyht_up" "Whether scrape was successful" ["status"]

def nullTopic : String := "shellies/null/info"

/-- Go `nullMessage{}`: `Topic()` is `nullTopic`, `Payload()` is `{}`. -/
def nullMessage : mqtt.Message :=
  { topic := nullTopic, payload := "\x7b\x7d" }

/-- `NewCollector`, without its goroutine. -/
def NewCollector : Collector :=
  { lastMSG := { topic := nullTopic, msg := nullMessage } }

/-- One turn of the goroutine of `NewCollector` on a received message. -/
def messageLoopStep (c : Collector) (msg : mqtt.Message) : Collector :=
  if strings.HasSuffix msg.topic "/info" = false then c
  else { c with lastMSG := { topic := msg.topic, msg := msg } }

/-- The goroutine of `NewCollector` run over the messages of the channel. -/
def messageLoop (c : Collector) (msgs : List mqtt.Message) : Collector :=
  msgs.foldl messageLoopStep c

/-- The functions of other libraries that `collect` calls:
`json.Unmarshal` into an `Info` and the `%q` verb of `fmt.Errorf`. -/
structure Lib (F : Type) where
  jsonUnmarshal : String → Except String (Info F)
  quote : String → String

/-- `Collector.collect`: the metrics sent and the error returned. -/
def collect {F : Type} [IntCast F] (lib : Lib F) (c : Collector) :
    List (Metric F) × Option String :=
  if strings.HasSuffix c.lastMSG.msg.topic "/info" then
    match lib.jsonUnmarshal c.lastMSG.msg.payload with
    | .error err =>
      ([], some ("collect: json unmarshal failed: " ++ err ++ " for data: "
        ++ lib.quote c.lastMSG.msg.payload))
    | .ok info =>
      let devID := info.Mac
      ([MustNewConstMetric tmpDesc .GaugeValue info.Tmp.TC [devID, "c"],
        MustNewConstMetric tmpDesc .GaugeValue info.Tmp.TF [devID, "f"],
        MustNewConstMetric humDesc .GaugeValue info.Hum.Value [devID, "%"],
        MustNewConstMetric batDesc .GaugeValue info.Bat.Voltage [devID, "V"],
        MustNewConstMetric batDesc .GaugeValue (info.Bat.Value : F) [devID, "%"]], none)
  else ([], none)

/-- `Collector.Collect`: the metrics of `collect` followed by `shellyht_up`. -/
def Collect {F : Type} [Zero F] [One F] [IntCast F] (lib : Lib F) (c : Collector) :
    List (Metric F) :=
  match collect lib c with
  | (ms, none) => ms ++ [MustNewConstMetric upDesc .GaugeValue 1 [""]]
  | (ms, some e) => ms ++ [MustNewConstMetric upDesc .GaugeValue 0 [e]]

/-- The payload of an `/info` message used in the examples:
`{"mac":"AABBCC","tmp":{"tC":21,"tF":70},"hum":{"value":55},"bat":{"value":93,"voltage":3}}`. -/
def examplePayload : String :=
  "\x7b\"mac\":\"AABBCC\",\"tmp\":\x7b\"tC\":21,\"tF\":70\x7d,\"hum\":\x7b\"value\":55\x7d,\"bat\":\x7b\"value\":93,\"voltage\":3\x7d\x7d"

/-- What `json.Unmarshal` makes of `examplePayload`. -/
def exampleInfo : Info Int :=
  { Mac := "AABBCC", IsValid := false,
    Tmp := { Value := 0, Units := "", TC := 21, TF := 70, IsValid := false },
    Hum := { Value := 55, IsValid := false },
    Bat := { Value := 93, Voltage := 3 } }

/-- A stand-in for the library functions in the examples, with `Int` for
`float64`: `json.Unmarshal` on the payloads `{}` and `examplePayload`, every
other payload counting as malformed, and `%q` as plain double quotes. -/
def exampleLib : Lib Int :=
  { jsonUnmarshal := fun p =>
      if p = "\x7b\x7d" then .ok Info.zero
      else if p = examplePayload then .ok exampleInfo
      else .error "invalid character",
    quote := fun p => "\"" ++ p ++ "\"" }

/-- A stand-in for the `%q` verb of `fmt` on text of printable ASCII
characters: the text in double quotes, with a backslash before every double
quote and every backslash. -/
def goQuote (s : String) : String :=
  "\"" ++ String.mk (s.data.flatMap (fun ch =>
    if ch = Char.ofNat 34 ∨ ch = Char.ofNat 92 then [Char.ofNat 92, ch] else [ch])) ++ "\""

/-- The payload of a truncated report used in the examples: `{"mac":`. -/
def truncatedPayload : String := "\x7b\"mac\":"

/-- A stand-in for the library functions in the examples of failed decoding,
with `Int` for `float64`: `json.Unmarshal` fails on `truncatedPayload` with
`unexpected end of JSON input`, decodes `{}` to the zero `Info`, and counts
every other payload as malformed; `%q` is `goQuote`. -/
def exampleLibQ : Lib Int :=
  { jsonUnmarshal := fun p =>
      if p = truncatedPayload then .error "unexpected end of JSON input"
      else if p = "\x7b\x7d" then .ok Info.zero
      else .error "invalid character",
    quote := goQuote }

end ht

/-! ## Package `htgen3` (`htgen3/htgen3.go`) -/

namespace htgen3

/-- Go `Battery`. -/
structure Battery (F : Type) where
  V : F
  Percent : Int
deriving DecidableEq

/-- Go `External`. -/
structure External where
  Present : Bool
deriving DecidableEq

/-- Go `Devicepower0`. -/
structure Devicepower0 (F : Type) where
  ID : Int
  Battery : Battery F
  External : External
deriving DecidableEq

/-- Go `Humidity0`. -/
structure Humidity0 (F : Type) where
  ID : Int
  Rh : F
deriving DecidableEq

/-- Go `Temperature0`. -/
structure Temperature0 (F : Type) where
  ID : Int
  TC : F
  TF : F
deriving DecidableEq

/-- Go `Params`, with the fields `collect` reads and `Ts`; the others
(`ble`, `cloud`, `ht_ui`, `mqtt`, `sys`, `wifi`, `ws`) are never read. -/
structure Params (F : Type) where
  Ts : F
  Devicepower0 : Devicepower0 F
  Humidity0 : Humidity0 F
  Temperature0 : Temperature0 F
deriving DecidableEq

/-- Go `Event`: the envelope of an RPC notification. -/
structure Event (F : Type) where
  Src : String
  Dst : String
  Method : String
  Params : Params F
deriving DecidableEq

/-- The zero value of `Event`, which `var info Event` declares. -/
def Event.zero {F : Type} [Zero F] : Event F :=
  { Src := "", Dst := "", Method := "",
    Params :=
      { Ts := 0,
        Devicepower0 :=
          { ID := 0, Battery := { V := 0, Percent := 0 }, External := { Present := false } },
        Humidity0 := { ID := 0, Rh := 0 },
        Temperature0 := { ID := 0, TC := 0, TF := 0 } } }

/-- Go `lastMSG`, without its `time`. -/
structure lastMSG where
  topic : String
  msg : mqtt.Message
deriving DecidableEq

/-- The mutable part of `Collector`. -/
structure Collector where
  lastMSG : lastMSG
deriving DecidableEq

def tmpDesc : Desc :=
  NewDesc "shellyhtgen3_temperature" "Sensor temperature" ["device", "unit"]

def humDesc : Desc :=
  NewDesc "shellyhtgen3_humidity" "Sensor humidity" ["device", "unit"]

def batDesc : Desc :=
  NewDesc "shellyhtgen3_battery" "Sensor battery" ["device", "unit"]

def upDesc : Desc :=
  NewDesc "shellyhtgen3_up" "Whether scrape was successful" ["status"]

def nullTopic : String := "shellies/null/rpc"

/-- Go `nullMessage{}`: `Topic()` is `nullTopic`, `Payload()` is `{}`. -/
def nullMessage : mqtt.Message :=
  { topic := nullTopic, payload := "\x7b\x7d" }

/-- `NewCollector`, without its goroutine. -/
def NewCollector : Collector :=
  { lastMSG := { topic := nullTopic, msg := nullMessage } }

/-- The functions of other libraries that the collector calls:
`gjson.GetBytes(payload, "method").String()`, `json.Unmarshal` into an
`Event` and the `%q` verb of `fmt.Errorf`. -/
structure Lib (F : Type) where
  gjsonMethod : String → String
  jsonUnmarshal : String → Except String (Event F)
  quote : String → String

/-- One turn of the goroutine of `NewCollector` on a received message. -/
def messageLoopStep {F : Type} (lib : Lib F) (c : Collector) (msg : mqtt.Message) :
    Collector :=
  if lib.gjsonMethod msg.payload = "NotifyFullStatus" then
    { c with lastMSG := { topic := msg.topic, msg := msg } }
  else c

/-- The goroutine of `NewCollector` run over the messages of the channel. -/
def messageLoop {F : Type} (lib : Lib F) (c : Collector) (msgs : List mqtt.Message) :
    Collector :=
  msgs.foldl (messageLoopStep lib) c

/-- `Collector.collect`: the metrics sent and the error returned. -/
def collect {F : Type} [IntCast F] (lib : Lib F) (c : Collector) :
    List (Metric F) × Option String :=
  if strings.HasSuffix c.lastMSG.msg.topic "/rpc" then
    match lib.jsonUnmarshal c.lastMSG.msg.payload with
    | .error err =>
      ([], some ("collect: json unmarshal failed: " ++ err ++ " for data: "
        ++ lib.quote c.lastMSG.msg.payload))
    | .ok info =>
      if info.Method ≠ "NotifyFullStatus" then ([], none)
      else
        let devID := info.Src
        ([MustNewConstMetric tmpDesc .GaugeValue info.Params.Temperature0.TC [devID, "c"],
          MustNewConstMetric tmpDesc .GaugeValue info.Params.Temperature0.TF [devID, "f"],
          MustNewConstMetric humDesc .GaugeValue info.Params.Humidity0.Rh [devID, "%"],
          MustNewConstMetric batDesc .GaugeValue info.Params.Devicepower0.Battery.V [devID, "V"],
          MustNewConstMetric batDesc .GaugeValue
            (info.Params.Devicepower0.Battery.Percent : F) [devID, "%"]], none)
  else ([], none)

/-- `Collector.Collect`: the metrics of `collect` followed by `shellyhtgen3_up`. -/
def Collect {F : Type} [Zero F] [One F] [IntCast F] (lib : Lib F) (c : Collector) :
    List (Metric F) :=
  match collect lib c with
  | (ms, none) => ms ++ [MustNewConstMetric upDesc .GaugeValue 1 [""]]
  | (ms, some e) => ms ++ [MustNewConstMetric upDesc .GaugeValue 0 [e]]

/-- The payload of a full status report used in the examples:
`{"src":"shellyhtg3-1","method":"NotifyFullStatus","params":{"temperature:0":{"tC":21,"tF":70}}}`. -/
def examplePayload : String :=
  "\x7b\"src\":\"shellyhtg3-1\",\"method\":\"NotifyFullStatus\",\"params\":\x7b\"temperature:0\":\x7b\"tC\":21,\"tF\":70\x7d\x7d\x7d"

/-- What `json.Unmarshal` makes of `examplePayload`. -/
def exampleEvent : Event Int :=
  { Src := "shellyhtg3-1", Dst := "", Method := "NotifyFullStatus",
    Params :=
      { Ts := 0,
        Devicepower0 :=
          { ID := 0, Battery := { V := 0, Percent := 0 }, External := { Present := false } },
        Humidity0 := { ID := 0, Rh := 0 },
        Temperature0 := { ID := 0, TC := 21, TF := 70 } } }

/-- A stand-in for the library functions in the examples, with `Int` for
`float64`: `gjson` and `json.Unmarshal` on the payloads `{}` and
`examplePayload`, every other payload counting as malformed, and `%q` as
plain double quotes. -/
def exampleLib : Lib Int :=
  { gjsonMethod := fun p => if p = examplePayload then "NotifyFullStatus" else "",
    jsonUnmarshal := fun p =>
      if p = "\x7b\x7d" then .ok Event.zero
      else if p = examplePayload then .ok exampleEvent
      else .error "invalid character",
    quote := fun p => "\"" ++ p ++ "\"" }

/-- The collector that retains the report `examplePayload` received on the
topic `shellyhtg3-1/events/rpc`. -/
def exampleRetained : Collector :=
  messageLoopStep exampleLib NewCollector ⟨"shellyhtg3-1/events/rpc", examplePayload⟩

end htgen3

/-! ## Facts about the library functions -/

theorem stringLess_iff (a b : String) : stringLess a b = true ↔ a < b := by
  simp [stringLess, String.lt_iff_toList_lt]

theorem stringLess_eq_false_iff (a b : String) : stringLess a b = false ↔ b ≤ a := by
  rw [← not_lt, ← stringLess_iff]; simp

theorem sortSlice_perm {α : Type} (less : α → α → Bool) (xs : List α) :
    (sortSlice less xs).Perm xs :=
  List.perm_insertionSort _ xs

/-- Splitting at a character gives one piece more than the character has
occurrences. -/
theorem splitOn_length {α : Type} [DecidableEq α] (a : α) (l : List α) :
    (l.splitOn a).length = l.count a + 1 := by
  induction l with
  | nil => simp [List.splitOn_nil]
  | cons x xs ih =>
    unfold List.splitOn at ih ⊢
    rw [List.splitOnP_cons]
    by_cases h : x = a
    · subst h
      simp [ih]
    · have hne : (x == a) = false := by simpa using h
      have hne2 : List.splitOnP (fun x => x == a) xs ≠ [] := List.splitOnP_ne_nil _ _
      simp only [hne, Bool.false_eq_true, if_false]
      rw [List.count_cons_of_ne (Ne.symm h)]
      rw [← ih]
      cases hs : List.splitOnP (fun x => x == a) xs with
      | nil => exact absurd hs hne2
      | cons y ys => simp [List.modifyHead]

theorem goIndex_isSome {α : Type} (xs : List α) (i : Int) (h0 : 0 ≤ i) (h1 : i < xs.length) :
    (goIndex xs i).isSome = true := by
  unfold goIndex
  have : ¬ i < 0 := by omega
  simp only [this, if_false]
  have h2 : i.toNat < xs.length := by omega
  simp [List.getElem?_eq_getElem h2]

/-! ## The 3EM collector -/

namespace threeem

theorem sortSlice_entryLess_sorted {F : Type} (xs : List (Entry F)) :
    (sortSlice entryLess xs).Sorted (fun a b => a.Key ≤ b.Key) := by
  have hT : IsTotal (Entry F) (fun a b => entryLess b a = false) :=
    ⟨fun a b => by
      simp only [entryLess, stringLess_eq_false_iff]
      exact le_total _ _⟩
  have hTr : IsTrans (Entry F) (fun a b => entryLess b a = false) :=
    ⟨fun a b c => by
      simp only [entryLess, stringLess_eq_false_iff]
      exact le_trans⟩
  have h := List.sorted_insertionSort (fun a b : Entry F => entryLess b a = false) xs
  refine List.Pairwise.imp ?_ h
  intro a b hab
  simpa [entryLess, stringLess_eq_false_iff] using hab

theorem contains_emeter_count (t : String) (h : strings.Contains t "/emeter/" = true) :
    2 ≤ t.data.count '/' := by
  simp only [strings.Contains, decide_eq_true_eq] at h
  obtain ⟨s, u, hsu⟩ := h
  rw [← hsu]
  simp only [List.count_append]
  have h2 : List.count '/' "/emeter/".data = 2 := by decide
  rw [h2]
  omega

theorem getMsgInfo_isSome (t : String) (h : strings.Contains t "/emeter/" = true) :
    (getMsgInfo t).isSome = true := by
  have hc := contains_emeter_count t h
  have hl : (strings.Split t '/').length = t.data.count '/' + 1 := by
    simp [strings.Split, splitOn_length]
  have h1 := goIndex_isSome (strings.Split t '/') 1 (by omega) (by omega)
  have h2 := goIndex_isSome (strings.Split t '/') (((strings.Split t '/').length : Int) - 2)
    (by omega) (by omega)
  have h3 := goIndex_isSome (strings.Split t '/') (((strings.Split t '/').length : Int) - 1)
    (by omega) (by omega)
  obtain ⟨a, ha⟩ := Option.isSome_iff_exists.mp h1
  obtain ⟨b, hb⟩ := Option.isSome_iff_exists.mp h2
  obtain ⟨d, hd⟩ := Option.isSome_iff_exists.mp h3
  simp [getMsgInfo, ha, hb, hd]

theorem collectEntry_isSome {F : Type} (kv : Entry F)
    (h : strings.Contains kv.Key "/emeter/" = true) : (collectEntry kv).isSome = true := by
  obtain ⟨⟨d, p, l⟩, hi⟩ := Option.isSome_iff_exists.mp (getMsgInfo_isSome kv.Key h)
  simp only [collectEntry, hi, Option.bind_eq_bind, Option.some_bind, Option.pure_def]
  split_ifs <;> rfl


theorem Entries_keys {F : Type} (m : TopicMap F) : (Entries m).map Entry.Key = m.keys := by
  simp [Entries, AList.keys, List.keys, List.map_map, Function.comp_def]

theorem mem_Entries_iff {F : Type} (m : TopicMap F) (k : String) (v : F) :
    ({ Key := k, Value := v } : Entry F) ∈ Entries m ↔ m.lookup k = some v := by
  rw [← Option.mem_def, AList.mem_lookup_iff]
  simp only [Entries, List.mem_map]
  constructor
  · rintro ⟨⟨k1, v1⟩, hmem, heq⟩
    simp only [Entry.mk.injEq] at heq
    obtain ⟨rfl, rfl⟩ := heq
    exact hmem
  · intro h
    exact ⟨⟨k, v⟩, h, rfl⟩

/-- What the snapshot of a map is: a rearrangement of its entries with
strictly increasing keys. -/
theorem snapshot_spec {F : Type} (c : Collector F) :
    (swapTopicValueCollector c).1.Perm (Entries c.topicValueCollector) ∧
    (swapTopicValueCollector c).1.Pairwise (fun a b => a.Key < b.Key) := by
  have hp : (swapTopicValueCollector c).1.Perm (Entries c.topicValueCollector) :=
    sortSlice_perm _ _
  refine ⟨hp, ?_⟩
  have hs : ((swapTopicValueCollector c).1.map Entry.Key).Sorted (· ≤ ·) :=
    List.pairwise_map.mpr (sortSlice_entryLess_sorted _)
  have hn : ((swapTopicValueCollector c).1.map Entry.Key).Nodup := by
    have := (hp.map Entry.Key).nodup_iff.mpr
      (by rw [Entries_keys]; exact c.topicValueCollector.keys_nodup)
    exact this
  exact List.pairwise_map.mp (hs.lt_of_le hn)

theorem snapshot_eq_of_perm {F : Type} (c1 c2 : Collector F)
    (h : (Entries c1.topicValueCollector).Perm (Entries c2.topicValueCollector)) :
    (swapTopicValueCollector c1).1 = (swapTopicValueCollector c2).1 := by
  have hA : IsAntisymm (Entry F) (fun a b => a.Key < b.Key) :=
    ⟨fun a b h1 h2 => absurd h1 (lt_asymm h2)⟩
  obtain ⟨p1, s1⟩ := snapshot_spec c1
  obtain ⟨p2, s2⟩ := snapshot_spec c2
  exact List.eq_of_perm_of_sorted ((p1.trans h).trans p2.symm) s1 s2

theorem EmeterKeys_NewCollector {F : Type} : EmeterKeys (NewCollector : Collector F) := by
  intro k hk
  simp [NewCollector, swapTopicValueCollector] at hk

theorem EmeterKeys_step {F : Type} (parseFloat : String → Except String F) (c : Collector F)
    (msg : mqtt.Message) (h : EmeterKeys c) : EmeterKeys (messageLoopStep parseFloat c msg) := by
  unfold messageLoopStep
  split_ifs with hc
  · exact h
  · cases hp : parseFloat msg.payload with
    | error e => simpa using h
    | ok v =>
      intro k hk
      simp only [AList.keys_insert, List.mem_cons] at hk
      rcases hk with rfl | hk
      · simpa using hc
      · exact h k (List.mem_of_mem_erase hk)

theorem EmeterKeys_messageLoop {F : Type} (parseFloat : String → Except String F)
    (msgs : List mqtt.Message) (c : Collector F) (h : EmeterKeys c) :
    EmeterKeys (messageLoop parseFloat c msgs) := by
  induction msgs generalizing c with
  | nil => exact h
  | cons m ms ih => exact ih _ (EmeterKeys_step parseFloat c m h)

theorem collectLoop_isSome {F : Type} (tv : List (Entry F))
    (h : ∀ kv ∈ tv, strings.Contains kv.Key "/emeter/" = true) :
    (collectLoop tv).isSome = true := by
  induction tv with
  | nil => rfl
  | cons kv tv ih =>
    obtain ⟨ms, hms⟩ := Option.isSome_iff_exists.mp (collectEntry_isSome kv (h kv (by simp)))
    obtain ⟨rs, hrs⟩ := Option.isSome_iff_exists.mp
      (ih (fun x hx => h x (List.mem_cons_of_mem _ hx)))
    simp [collectLoop, hms, hrs]

/-- The loop of `collect` sends, entry after entry, what the loop body sends. -/
theorem collectLoop_eq_some_iff {F : Type} (tv : List (Entry F)) (out : List (Metric F)) :
    collectLoop tv = some out ↔
      ∃ mss, List.Forall₂ (fun kv ms => collectEntry kv = some ms) tv mss ∧ out = mss.flatten := by
  induction tv generalizing out with
  | nil =>
    constructor
    · intro h
      refine ⟨[], List.Forall₂.nil, ?_⟩
      simpa [collectLoop] using h.symm
    · rintro ⟨mss, hf, rfl⟩
      cases hf
      rfl
  | cons kv tv ih =>
    constructor
    · intro h
      simp only [collectLoop, Option.bind_eq_bind, Option.bind_eq_some, Option.pure_def,
        Option.some.injEq] at h
      obtain ⟨ms, hms, rs, hrs, rfl⟩ := h
      obtain ⟨mss, hf, rfl⟩ := (ih rs).mp hrs
      exact ⟨ms :: mss, List.Forall₂.cons hms hf, by simp⟩
    · rintro ⟨mss, hf, rfl⟩
      cases hf with
      | cons hms hf =>
        have := (ih _).mpr ⟨_, hf, rfl⟩
        simp [collectLoop, hms, this]

theorem snapshot_keys_emeter {F : Type} (c : Collector F) (h : EmeterKeys c) :
    ∀ kv ∈ (swapTopicValueCollector c).1, strings.Contains kv.Key "/emeter/" = true := by
  intro kv hkv
  have hmem := (snapshot_spec c).1.subset hkv
  apply h
  rw [← Entries_keys]
  exact List.mem_map_of_mem _ hmem



theorem collect_eq {F : Type} (c : Collector F) :
    collect c = (collectLoop (swapTopicValueCollector c).1).map
      (fun ms => (ms, none, (swapTopicValueCollector c).2)) := by
  simp only [collect, Option.bind_eq_bind, Option.pure_def]
  cases collectLoop (swapTopicValueCollector c).1 <;> rfl

theorem Collect_eq {F : Type} [Zero F] [One F] (c : Collector F) :
    Collect c = (collectLoop (swapTopicValueCollector c).1).map
      (fun ms => (ms ++ [MustNewConstMetric upDesc .GaugeValue 1 [""]],
        (swapTopicValueCollector c).2)) := by
  simp only [Collect, collect_eq, Option.bind_eq_bind, Option.pure_def]
  cases collectLoop (swapTopicValueCollector c).1 <;> rfl

theorem snapshot_empty {F : Type} (c : Collector F) :
    (swapTopicValueCollector (swapTopicValueCollector c).2).1 = [] ∧
    (swapTopicValueCollector (swapTopicValueCollector c).2).2 = (swapTopicValueCollector c).2 := by
  constructor <;> rfl

/-- Claim C2, sorted snapshot.  For every live map, the list returned by
`swapTopicValueCollector` is a permutation of the entries of the map (an
entry is in the list exactly when the map binds its key to its value), its
keys are strictly increasing in the string order of Go, and no key occurs
twice. -/
theorem snapshot_sorted_permutation {F : Type} (c : Collector F) :
    (swapTopicValueCollector c).1.Perm (Entries c.topicValueCollector) ∧
    (∀ k v, ({ Key := k, Value := v } : Entry F) ∈ (swapTopicValueCollector c).1 ↔
      c.topicValueCollector.lookup k = some v) ∧
    (swapTopicValueCollector c).1.Pairwise (fun a b => stringLess a.Key b.Key = true) ∧
    ((swapTopicValueCollector c).1.map Entry.Key).Nodup := by
  obtain ⟨hp, hs⟩ := snapshot_spec c
  refine ⟨hp, ?_, ?_, ?_⟩
  · intro k v
    rw [hp.mem_iff, mem_Entries_iff]
  · exact hs.imp (fun h => (stringLess_iff _ _).mpr h)
  · exact (List.pairwise_map.mpr hs).imp (fun h => ne_of_lt h)

theorem messageLoop_append {F : Type} (parseFloat : String → Except String F)
    (c : Collector F) (ms : List mqtt.Message) (m : mqtt.Message) :
    messageLoop parseFloat c (ms ++ [m]) =
      messageLoopStep parseFloat (messageLoop parseFloat c ms) m := by
  simp [messageLoop, List.foldl_append]

/-- The binding of a key after a run of the goroutine: the value of the
last accepted message on that topic, or the former binding. -/
theorem lookup_messageLoop {F : Type} (parseFloat : String → Except String F)
    (c : Collector F) (msgs : List mqtt.Message) (k : String) :
    (messageLoop parseFloat c msgs).topicValueCollector.lookup k =
      match (msgs.filterMap (fun m =>
          if m.topic = k ∧ strings.Contains m.topic "/emeter/" = true then
            (parseFloat m.payload).toOption
          else none)).getLast? with
      | some v => some v
      | none => c.topicValueCollector.lookup k := by
  induction msgs using List.reverseRecOn with
  | nil => rfl
  | append_singleton ms m ih =>
    rw [messageLoop_append, List.filterMap_append]
    by_cases hc : strings.Contains m.topic "/emeter/" = true
    · cases hp : parseFloat m.payload with
      | error e =>
        simp only [messageLoopStep, hc, Bool.true_eq_false, if_false, hp]
        simp [hp, Except.toOption, ih]
      | ok v =>
        simp only [messageLoopStep, hc, Bool.true_eq_false, if_false, hp]
        by_cases hk : m.topic = k
        · subst hk
          simp [hc, hp, Except.toOption]
        · have hk2 : k ≠ m.topic := fun h => hk h.symm
          simp [hk, AList.lookup_insert_ne hk2, ih]
    · have hc2 : strings.Contains m.topic "/emeter/" = false := by simpa using hc
      simp [messageLoopStep, hc2, ih]

theorem Entries_perm_of_lookup_eq {F : Type} (m1 m2 : TopicMap F)
    (h : ∀ k, m1.lookup k = m2.lookup k) : (Entries m1).Perm (Entries m2) := by
  have hp : m1.entries.Perm m2.entries := by
    apply List.lookup_ext m1.nodupKeys m2.nodupKeys
    intro x y
    have := h x
    simp only [AList.lookup] at this
    rw [this]
  exact hp.map _

theorem filterMap_topic_length_le {F : Type} (g : mqtt.Message → Option F) (k : String)
    (l : List mqtt.Message) :
    (l.filterMap (fun m => if m.topic = k ∧ strings.Contains m.topic "/emeter/" = true
      then g m else none)).length ≤ (l.map mqtt.Message.topic).count k := by
  induction l with
  | nil => simp
  | cons m ms ih =>
    by_cases hk : m.topic = k
    · simp only [List.map_cons, hk, List.count_cons_self]
      rw [List.filterMap_cons]
      split
      · omega
      · simp only [List.length_cons]
        omega
    · have hk2 : ¬ (m.topic = k ∧ strings.Contains m.topic "/emeter/" = true) := fun h => hk h.1
      rw [List.filterMap_cons]
      simp only [hk2, if_false, List.map_cons]
      rw [List.count_cons_of_ne (fun h => hk h.symm)]
      exact ih

theorem perm_eq_of_length_le_one {α : Type} {l1 l2 : List α} (hp : l1.Perm l2)
    (hl : l1.length ≤ 1) : l1 = l2 := by
  match l1, hl with
  | [], _ => exact (List.nil_perm.mp hp).symm
  | [a], _ => exact List.singleton_perm.mp hp

/-- Messages on pairwise distinct topics can be received in any order: the
live map ends with the same bindings. -/
theorem Entries_perm_of_reorder {F : Type} (parseFloat : String → Except String F)
    (c0 : Collector F) (msgs1 msgs2 : List mqtt.Message) (hp : msgs1.Perm msgs2)
    (hn : (msgs1.map mqtt.Message.topic).Nodup) :
    (Entries (messageLoop parseFloat c0 msgs1).topicValueCollector).Perm
      (Entries (messageLoop parseFloat c0 msgs2).topicValueCollector) := by
  apply Entries_perm_of_lookup_eq
  intro k
  rw [lookup_messageLoop, lookup_messageLoop]
  have hl := filterMap_topic_length_le (fun m => (parseFloat m.payload).toOption) k msgs1
  have hc : (msgs1.map mqtt.Message.topic).count k ≤ 1 := List.nodup_iff_count_le_one.mp hn k
  have heq := perm_eq_of_length_le_one
    (hp.filterMap (fun m => if m.topic = k ∧ strings.Contains m.topic "/emeter/" = true
      then (parseFloat m.payload).toOption else none)) (le_trans hl hc)
  rw [heq]

/-- Claim C3, independence of arrival order.  When two sequences of
messages leave the live map with the same (topic, value) pairs, the scrapes
that follow send the same metrics in the same order (and leave the same
collector); this is so in particular when one sequence is a reordering of
the other and the topics of its messages are pairwise distinct. -/
theorem scrape_independent_of_arrival_order {F : Type} [Zero F] [One F]
    (parseFloat : String → Except String F) (c0 : Collector F) (msgs1 msgs2 : List mqtt.Message) :
    ((Entries (messageLoop parseFloat c0 msgs1).topicValueCollector).Perm
        (Entries (messageLoop parseFloat c0 msgs2).topicValueCollector) →
      Collect (messageLoop parseFloat c0 msgs1) = Collect (messageLoop parseFloat c0 msgs2)) ∧
    (msgs1.Perm msgs2 → (msgs1.map mqtt.Message.topic).Nodup →
      Collect (messageLoop parseFloat c0 msgs1) = Collect (messageLoop parseFloat c0 msgs2)) := by
  have key : (Entries (messageLoop parseFloat c0 msgs1).topicValueCollector).Perm
        (Entries (messageLoop parseFloat c0 msgs2).topicValueCollector) →
      Collect (messageLoop parseFloat c0 msgs1) = Collect (messageLoop parseFloat c0 msgs2) := by
    intro h
    rw [Collect_eq, Collect_eq, snapshot_eq_of_perm _ _ h]
    rfl
  exact ⟨key, fun hp hn => key (Entries_perm_of_reorder parseFloat c0 msgs1 msgs2 hp hn)⟩

theorem scrape_independent_of_arrival_order_witness :
    ((Entries (messageLoop exampleParseFloat NewCollector
        [⟨"shellies/shellyem3-w/emeter/0/voltage", "231"⟩,
         ⟨"shellies/shellyem3-w/emeter/0/current", "1"⟩]).topicValueCollector).Perm
      (Entries (messageLoop exampleParseFloat NewCollector
        [⟨"shellies/shellyem3-w/emeter/0/current", "1"⟩,
         ⟨"shellies/shellyem3-w/emeter/0/voltage", "231"⟩]).topicValueCollector) ∧
      ([⟨"shellies/shellyem3-w/emeter/0/current", "1"⟩,
        ⟨"shellies/shellyem3-w/emeter/0/voltage", "231"⟩] : List mqtt.Message).Perm
        [⟨"shellies/shellyem3-w/emeter/0/voltage", "231"⟩,
         ⟨"shellies/shellyem3-w/emeter/0/current", "1"⟩] ∧
      (["shellies/shellyem3-w/emeter/0/current", "shellies/shellyem3-w/emeter/0/voltage"]
        : List String).Nodup) ∧
    Collect (messageLoop exampleParseFloat NewCollector
        [⟨"shellies/shellyem3-w/emeter/0/voltage", "231"⟩,
         ⟨"shellies/shellyem3-w/emeter/0/current", "1"⟩]) =
      Collect (messageLoop exampleParseFloat NewCollector
        [⟨"shellies/shellyem3-w/emeter/0/current", "1"⟩,
         ⟨"shellies/shellyem3-w/emeter/0/voltage", "231"⟩]) ∧
    Collect (messageLoop exampleParseFloat NewCollector
        [⟨"shellies/shellyem3-w/emeter/0/current", "1"⟩,
         ⟨"shellies/shellyem3-w/emeter/0/voltage", "231"⟩]) =
      Collect (messageLoop exampleParseFloat NewCollector
        [⟨"shellies/shellyem3-w/emeter/0/voltage", "231"⟩,
         ⟨"shellies/shellyem3-w/emeter/0/current", "1"⟩]) ∧
    (Collect (messageLoop exampleParseFloat NewCollector
        [⟨"shellies/shellyem3-w/emeter/0/current", "1"⟩,
         ⟨"shellies/shellyem3-w/emeter/0/voltage", "231"⟩])).map Prod.fst =
      some [MustNewConstMetric currentDesc .GaugeValue 1 ["w", "0"],
            MustNewConstMetric voltageDesc .GaugeValue 231 ["w", "0"],
            MustNewConstMetric upDesc .GaugeValue 1 [""]] :=
  ⟨⟨by decide, by decide, by decide⟩,
    (scrape_independent_of_arrival_order exampleParseFloat NewCollector _ _).1 (by decide),
    (scrape_independent_of_arrival_order exampleParseFloat NewCollector _ _).2
      (by decide) (by decide),
    by decide⟩

theorem split_topic (D P M : String) (hD : '/' ∉ D.data) (hP : '/' ∉ P.data)
    (hM : '/' ∉ M.data) :
    strings.Split ("shellies/shellyem3-" ++ D ++ "/emeter/" ++ P ++ "/" ++ M) '/' =
      ["shellies", "shellyem3-" ++ D, "emeter", P, M] := by
  have hdata : ("shellies/shellyem3-" ++ D ++ "/emeter/" ++ P ++ "/" ++ M).data =
      ['/'].intercalate ["shellies".data, "shellyem3-".data ++ D.data, "emeter".data,
        P.data, M.data] := by
    simp [String.data_append, List.intercalate]
  have hsplit := List.splitOn_intercalate
    ["shellies".data, "shellyem3-".data ++ D.data, "emeter".data, P.data, M.data] '/'
    (by
      intro l hl
      simp only [List.mem_cons, List.mem_singleton, List.not_mem_nil, or_false] at hl
      rcases hl with rfl | rfl | rfl | rfl | rfl
      · decide
      · intro h
        rcases List.mem_append.mp h with h | h
        · revert h; decide
        · exact hD h
      · decide
      · exact hP
      · exact hM)
    (by simp)
  unfold strings.Split
  rw [hdata, hsplit]
  simp [String.ext_iff, String.data_append]

theorem cutPrefix_device (D : String) :
    (strings.CutPrefix ("shellyem3-" ++ D) "shellyem3-").1 = D := by
  have h : "shellyem3-".data <+: ("shellyem3-" ++ D).data := by
    rw [String.data_append]; exact List.prefix_append _ _
  simp only [strings.CutPrefix, h, if_true]
  simp [String.ext_iff, String.data_append]

theorem getMsgInfo_topic (D P M : String) (hD : '/' ∉ D.data) (hP : '/' ∉ P.data)
    (hM : '/' ∉ M.data) :
    getMsgInfo ("shellies/shellyem3-" ++ D ++ "/emeter/" ++ P ++ "/" ++ M) = some (D, P, M) := by
  simp only [getMsgInfo, split_topic D P M hD hP hM]
  simp [goIndex, cutPrefix_device]



/-- Claim C5, topic to sample.  For a device name `D` and a phase `P` that
are path segments (no `/` in them), a value `v` and each of the eight
measurement names `M`, `getMsgInfo` on `shellies/shellyem3-D/emeter/P/M`
returns `(D, P, M)` and the loop body of `collect` sends for the entry with
that key and value `v` exactly one metric: of the family of `M`, a gauge of
value `v` with label values `D` (device) and `P` (phase).  The first
conjunct records the names and label names of the eight families. -/
theorem topic_to_sample {F : Type} (D P : String) (v : F)
    (hD : '/' ∉ D.data) (hP : '/' ∉ P.data) :
    ([energyDesc, energyReturnedDesc, totalDesc, totalReturnedDesc, powerDesc, voltageDesc,
        currentDesc, pfDesc].map (fun d => (d.fqName, d.variableLabels)) =
      [("shelly3em_energy", ["device", "phase"]),
       ("shelly3em_energy_returned", ["device", "phase"]),
       ("shelly3em_total", ["device", "phase"]),
       ("shelly3em_total_returned", ["device", "phase"]),
       ("shelly3em_power", ["device", "phase"]),
       ("shelly3em_voltage", ["device", "phase"]),
       ("shelly3em_current", ["device", "phase"]),
       ("shelly3em_pf", ["device", "phase"])]) ∧
    ∀ p ∈ [("energy", energyDesc), ("returned_energy", energyReturnedDesc),
        ("total", totalDesc), ("total_returned", totalReturnedDesc), ("power", powerDesc),
        ("voltage", voltageDesc), ("current", currentDesc), ("pf", pfDesc)],
      getMsgInfo ("shellies/shellyem3-" ++ D ++ "/emeter/" ++ P ++ "/" ++ p.1)
        = some (D, P, p.1) ∧
      collectEntry
          { Key := "shellies/shellyem3-" ++ D ++ "/emeter/" ++ P ++ "/" ++ p.1, Value := v }
        = some [MustNewConstMetric p.2 .GaugeValue v [D, P]] := by
  refine ⟨by decide, ?_⟩
  intro p hp
  obtain ⟨M, d⟩ := p
  simp only [List.mem_cons, List.mem_singleton, List.not_mem_nil, or_false,
    Prod.mk.injEq] at hp
  have hM : '/' ∉ M.data := by
    rcases hp with h | h | h | h | h | h | h | h <;>
    · rw [h.1]
      decide
  have hi := getMsgInfo_topic D P M hD hP hM
  refine ⟨hi, ?_⟩
  simp only [collectEntry, hi, Option.bind_eq_bind, Option.some_bind]
  rcases hp with h | h | h | h | h | h | h | h <;>
  · obtain ⟨rfl, rfl⟩ := h
    rfl

theorem topic_to_sample_witness :
    ('/' ∉ "washtumbler".data ∧ '/' ∉ "0".data) ∧
    getMsgInfo "shellies/shellyem3-washtumbler/emeter/0/voltage"
      = some ("washtumbler", "0", "voltage") ∧
    collectEntry
        ({ Key := "shellies/shellyem3-washtumbler/emeter/0/voltage", Value := 231 } : Entry Int)
      = some [MustNewConstMetric voltageDesc .GaugeValue 231 ["washtumbler", "0"]] :=
  ⟨⟨by decide, by decide⟩,
    (topic_to_sample "washtumbler" "0" (231 : Int) (by decide) (by decide)).2
      ("voltage", voltageDesc) (by decide)⟩

/-- Claim C6, keyed-scalar update.  A message whose topic `t` contains
`/emeter/` and whose payload parses to `v` leaves the map with `t` bound to
`v` and every other key bound as before; a message whose topic does not
contain `/emeter/` leaves the collector unchanged.  Hence after any sequence
of messages a key holds the value of the last message on that topic that was
accepted (topic with `/emeter/`, payload that parses), or its former binding
when there is none. -/
theorem keyed_scalar_update {F : Type} (parseFloat : String → Except String F)
    (c : Collector F) (msg : mqtt.Message) :
    (∀ v, strings.Contains msg.topic "/emeter/" = true → parseFloat msg.payload = .ok v →
      (messageLoopStep parseFloat c msg).topicValueCollector.lookup msg.topic = some v ∧
      ∀ k, k ≠ msg.topic →
        (messageLoopStep parseFloat c msg).topicValueCollector.lookup k =
          c.topicValueCollector.lookup k) ∧
    (strings.Contains msg.topic "/emeter/" = false → messageLoopStep parseFloat c msg = c) ∧
    ∀ (msgs : List mqtt.Message) (k : String),
      (messageLoop parseFloat c msgs).topicValueCollector.lookup k =
        match (msgs.filterMap (fun m =>
            if m.topic = k ∧ strings.Contains m.topic "/emeter/" = true then
              (parseFloat m.payload).toOption
            else none)).getLast? with
        | some v => some v
        | none => c.topicValueCollector.lookup k := by
  refine ⟨?_, ?_, ?_⟩
  · intro v hc hv
    simp only [messageLoopStep, hc, Bool.true_eq_false, if_false, hv]
    exact ⟨AList.lookup_insert _, fun k hk => AList.lookup_insert_ne hk⟩
  · intro hc
    simp [messageLoopStep, hc]
  · intro msgs k
    exact lookup_messageLoop parseFloat c msgs k

theorem keyed_scalar_update_witness :
    (strings.Contains "shellies/shellyem3-w/emeter/0/voltage" "/emeter/" = true ∧
      exampleParseFloat "231" = .ok 231 ∧
      (messageLoopStep exampleParseFloat NewCollector
        ⟨"shellies/shellyem3-w/emeter/0/voltage", "231"⟩).topicValueCollector.lookup
          "shellies/shellyem3-w/emeter/0/voltage" = some 231) ∧
    (strings.Contains "shellies/shellyht-1/info" "/emeter/" = false ∧
      messageLoopStep exampleParseFloat NewCollector ⟨"shellies/shellyht-1/info", "231"⟩
        = NewCollector) :=
  ⟨⟨by decide, rfl,
      ((keyed_scalar_update exampleParseFloat NewCollector
        ⟨"shellies/shellyem3-w/emeter/0/voltage", "231"⟩).1 231 (by decide) rfl).1⟩,
    by decide,
    (keyed_scalar_update exampleParseFloat NewCollector
      ⟨"shellies/shellyht-1/info", "231"⟩).2.1 (by decide)⟩

/-- Every metric built by the loop body of `collect` has as many label
values as its descriptor has labels. -/
theorem collectEntry_label_count {F : Type} (kv : Entry F) (ms : List (Metric F))
    (h : collectEntry kv = some ms) :
    ∀ m ∈ ms, m.labelValues.length = m.desc.variableLabels.length := by
  unfold collectEntry at h
  cases hi : getMsgInfo kv.Key with
  | none => simp [hi] at h
  | some r =>
    obtain ⟨d, p, l⟩ := r
    simp only [hi, Option.bind_eq_bind, Option.some_bind, Option.pure_def] at h
    split_ifs at h <;>
    · simp only [Option.some.injEq] at h
      subst h
      intro m hm
      simp only [List.mem_singleton, List.not_mem_nil] at hm
      try (subst hm; rfl)

theorem goIndex_last {α : Type} (xs : List α) (a : α)
    (h : goIndex xs ((xs.length : Int) - 1) = some a) : xs.getLast? = some a := by
  unfold goIndex at h
  split_ifs at h with hneg
  rw [List.getLast?_eq_getElem?]
  have : ((xs.length : Int) - 1).toNat = xs.length - 1 := by omega
  rw [← this]
  exact h

theorem getMsgInfo_lastPath (t d p l : String) (h : getMsgInfo t = some (d, p, l)) :
    (strings.Split t '/').getLast? = some l := by
  simp only [getMsgInfo, Option.bind_eq_bind, Option.bind_eq_some, Option.pure_def,
    Option.some.injEq, Prod.mk.injEq] at h
  obtain ⟨a, _, b, _, e, he, _, _, rfl⟩ := h
  exact goIndex_last _ _ he

/-- What the loop body sends for an entry whose topic `getMsgInfo` reads as
`(d, p, l)`: one gauge when `l` is a case label of the `switch`, nothing
otherwise. -/
theorem collectEntry_of_info {F : Type} (kv : Entry F) (d p l : String)
    (h : getMsgInfo kv.Key = some (d, p, l)) :
    ∃ ms, collectEntry kv = some ms ∧
      ms.length = (if l ∈ knownMeasurements then 1 else 0) ∧
      ∀ m ∈ ms, m.value = kv.Value ∧ m.labelValues = [d, p] := by
  simp only [collectEntry, h, Option.bind_eq_bind, Option.some_bind, Option.pure_def]
  simp only [knownMeasurements, List.mem_cons, List.mem_singleton, List.not_mem_nil, or_false]
  split_ifs <;> simp_all [MustNewConstMetric]



theorem collectLoop_length {F : Type} (tv : List (Entry F)) (ms : List (Metric F))
    (h : collectLoop tv = some ms) :
    ms.length = (tv.filter (fun kv =>
      decide (((strings.Split kv.Key '/').getLast?).getD "" ∈ knownMeasurements))).length := by
  induction tv generalizing ms with
  | nil =>
    simp only [collectLoop, Option.some.injEq] at h
    subst h
    rfl
  | cons kv tv ih =>
    simp only [collectLoop, Option.bind_eq_bind, Option.bind_eq_some, Option.pure_def,
      Option.some.injEq] at h
    obtain ⟨es, hes, rs, hrs, rfl⟩ := h
    have hi : ∃ r, getMsgInfo kv.Key = some r := by
      cases hg : getMsgInfo kv.Key with
      | none => simp [collectEntry, hg] at hes
      | some r => exact ⟨r, rfl⟩
    obtain ⟨⟨d, p, l⟩, hg⟩ := hi
    obtain ⟨es2, hes2, hlen, _⟩ := collectEntry_of_info kv d p l hg
    rw [hes] at hes2
    simp only [Option.some.injEq] at hes2
    subst hes2
    have hl := getMsgInfo_lastPath _ _ _ _ hg
    rw [List.length_append, ih rs hrs, hlen, List.filter_cons]
    simp only [hl, Option.getD_some]
    by_cases hk : l ∈ knownMeasurements
    · simp [hk]; omega
    · simp [hk]

/-- Claim C12, unroutable topics.  On every state reached by ingestion
`collect` returns, with no error, so the scrape ends with `shelly3em_up` of
value 1 and empty `last_error`; an entry of the snapshot whose last path
segment is none of the eight measurement names contributes no metric, and
the number of data metrics is the number of entries whose last path segment
is one of the eight names. -/
theorem unroutable_topics {F : Type} [Zero F] [One F]
    (parseFloat : String → Except String F) (msgs : List mqtt.Message) :
    ∃ ms c1,
      collect (messageLoop parseFloat NewCollector msgs) = some (ms, none, c1) ∧
      Collect (messageLoop parseFloat NewCollector msgs) =
        some (ms ++ [MustNewConstMetric upDesc .GaugeValue 1 [""]], c1) ∧
      (∀ kv ∈ (swapTopicValueCollector (messageLoop parseFloat NewCollector msgs)).1,
        ((strings.Split kv.Key '/').getLast?).getD "" ∉
          ["energy", "returned_energy", "total", "total_returned", "power", "voltage",
            "current", "pf"] →
        collectEntry kv = some []) ∧
      ms.length =
        ((swapTopicValueCollector (messageLoop parseFloat NewCollector msgs)).1.filter
          (fun kv => decide (((strings.Split kv.Key '/').getLast?).getD "" ∈
            ["energy", "returned_energy", "total", "total_returned", "power", "voltage",
              "current", "pf"]))).length := by
  have hinv := EmeterKeys_messageLoop parseFloat msgs NewCollector EmeterKeys_NewCollector
  have hkeys := snapshot_keys_emeter _ hinv
  obtain ⟨ms, hms⟩ := Option.isSome_iff_exists.mp (collectLoop_isSome _ hkeys)
  refine ⟨ms, (swapTopicValueCollector (messageLoop parseFloat NewCollector msgs)).2,
    ?_, ?_, ?_, collectLoop_length _ _ hms⟩
  · rw [collect_eq, hms]; rfl
  · rw [Collect_eq, hms]; rfl
  · intro kv hkv hnot
    obtain ⟨⟨d, p, l⟩, hg⟩ := Option.isSome_iff_exists.mp
      (getMsgInfo_isSome kv.Key (hkeys kv hkv))
    obtain ⟨es, hes, hlen, _⟩ := collectEntry_of_info kv d p l hg
    have hl := getMsgInfo_lastPath _ _ _ _ hg
    rw [hl, Option.getD_some] at hnot
    have hk : l ∉ knownMeasurements := hnot
    rw [if_neg hk] at hlen
    rw [hes, List.length_eq_zero.mp hlen]

theorem unroutable_topics_witness :
    (Collect (messageLoop exampleParseFloat NewCollector
        [⟨"shellies/shellyem3-w/emeter/0/voltage", "231"⟩,
         ⟨"shellies/shellyem3-w/emeter/0/frequency", "50"⟩])).map Prod.fst =
      some [MustNewConstMetric voltageDesc .GaugeValue 231 ["w", "0"],
            MustNewConstMetric upDesc .GaugeValue 1 [""]] ∧
    collectEntry ({ Key := "shellies/shellyem3-w/emeter/0/frequency", Value := 50 } : Entry Int)
      = some [] := by
  obtain ⟨ms, c1, _, _, h3, _⟩ := unroutable_topics exampleParseFloat
    [⟨"shellies/shellyem3-w/emeter/0/voltage", "231"⟩,
     ⟨"shellies/shellyem3-w/emeter/0/frequency", "50"⟩]
  exact ⟨by decide, h3 _ (by decide) (by decide)⟩

/-- Claim C15, index safety.  Every key of the map reached by ingestion
contains `/emeter/`; a topic that contains `/emeter/` splits at `/` into at
least three segments, so the three accesses `topicPaths[1]`,
`topicPaths[len-2]` and `topicPaths[len-1]` of `getMsgInfo` are in bounds;
hence `getMsgInfo` returns on every key of the snapshot and `collect` does
not panic on a state reached by ingestion.  On a topic without `/` the
access `topicPaths[1]` is out of range. -/
theorem index_safety {F : Type} (parseFloat : String → Except String F)
    (msgs : List mqtt.Message) :
    (∀ k ∈ (messageLoop parseFloat NewCollector msgs).topicValueCollector.keys,
      strings.Contains k "/emeter/" = true) ∧
    (∀ t : String, strings.Contains t "/emeter/" = true →
      3 ≤ (strings.Split t '/').length ∧
      (goIndex (strings.Split t '/') 1).isSome = true ∧
      (goIndex (strings.Split t '/') (((strings.Split t '/').length : Int) - 2)).isSome = true ∧
      (goIndex (strings.Split t '/') (((strings.Split t '/').length : Int) - 1)).isSome = true ∧
      (getMsgInfo t).isSome = true) ∧
    (∀ kv ∈ (swapTopicValueCollector (messageLoop parseFloat NewCollector msgs)).1,
      (getMsgInfo kv.Key).isSome = true) ∧
    (collect (messageLoop parseFloat NewCollector msgs)).isSome = true ∧
    (∀ t : String, '/' ∉ t.data → getMsgInfo t = none) := by
  have hinv := EmeterKeys_messageLoop parseFloat msgs NewCollector EmeterKeys_NewCollector
  have hkeys := snapshot_keys_emeter _ hinv
  refine ⟨hinv, ?_, fun kv hkv => getMsgInfo_isSome _ (hkeys kv hkv), ?_, ?_⟩
  · intro t ht
    have hc := contains_emeter_count t ht
    have hl : (strings.Split t '/').length = t.data.count '/' + 1 := by
      simp [strings.Split, splitOn_length]
    exact ⟨by omega, goIndex_isSome _ _ (by omega) (by omega),
      goIndex_isSome _ _ (by omega) (by omega), goIndex_isSome _ _ (by omega) (by omega),
      getMsgInfo_isSome t ht⟩
  · rw [collect_eq]
    obtain ⟨ms, hms⟩ := Option.isSome_iff_exists.mp (collectLoop_isSome _ hkeys)
    rw [hms]; rfl
  · intro t ht
    have hl : (strings.Split t '/').length = 1 := by
      simp [strings.Split, splitOn_length, List.count_eq_zero.mpr ht]
    have h1 : goIndex (strings.Split t '/') 1 = none := by
      unfold goIndex
      simp [hl]
    simp [getMsgInfo, h1]

theorem index_safety_witness :
    strings.Contains "shellies/shellyem3-w/emeter/0/voltage" "/emeter/" = true ∧
    (getMsgInfo "shellies/shellyem3-w/emeter/0/voltage").isSome = true ∧
    ('/' ∉ "voltage".data ∧ getMsgInfo "voltage" = none) :=
  ⟨by decide,
    ((index_safety exampleParseFloat []).2.1 "shellies/shellyem3-w/emeter/0/voltage"
      (by decide)).2.2.2.2,
    by decide, (index_safety exampleParseFloat []).2.2.2.2 "voltage" (by decide)⟩



theorem split_five (a b c d e : String) (ha : '/' ∉ a.data) (hb : '/' ∉ b.data)
    (hc : '/' ∉ c.data) (hd : '/' ∉ d.data) (he : '/' ∉ e.data) :
    strings.Split (a ++ "/" ++ b ++ "/" ++ c ++ "/" ++ d ++ "/" ++ e) '/' = [a, b, c, d, e] := by
  have hdata : (a ++ "/" ++ b ++ "/" ++ c ++ "/" ++ d ++ "/" ++ e).data =
      ['/'].intercalate [a.data, b.data, c.data, d.data, e.data] := by
    simp [String.data_append, List.intercalate]
  have hsplit := List.splitOn_intercalate [a.data, b.data, c.data, d.data, e.data] '/'
    (by
      intro l hl
      simp only [List.mem_cons, List.mem_singleton, List.not_mem_nil, or_false] at hl
      rcases hl with rfl | rfl | rfl | rfl | rfl <;> assumption)
    (by simp)
  unfold strings.Split
  rw [hdata, hsplit]
  rfl

theorem getMsgInfo_five (a b c d e : String) (ha : '/' ∉ a.data) (hb : '/' ∉ b.data)
    (hc : '/' ∉ c.data) (hd : '/' ∉ d.data) (he : '/' ∉ e.data) :
    getMsgInfo (a ++ "/" ++ b ++ "/" ++ c ++ "/" ++ d ++ "/" ++ e) =
      some ((strings.CutPrefix b "shellyem3-").1, d, e) := by
  simp only [getMsgInfo, split_five a b c d e ha hb hc hd he]
  simp [goIndex]

theorem cutPrefix_found (s p : String) (h : p.data <+: s.data) :
    s = p ++ (strings.CutPrefix s p).1 := by
  simp only [strings.CutPrefix, h, if_true]
  obtain ⟨r, hr⟩ := h
  apply String.ext
  simp [String.data_append, ← hr]

theorem cutPrefix_not_found (s p : String) (h : ¬ p.data <+: s.data) :
    (strings.CutPrefix s p).1 = s := by
  simp [strings.CutPrefix, h]

/-- Two path segments with the same device identity are equal, or one is
`shellyem3-` followed by the other. -/
theorem cutPrefix_eq (s1 s2 : String)
    (h : (strings.CutPrefix s1 "shellyem3-").1 = (strings.CutPrefix s2 "shellyem3-").1) :
    s1 = s2 ∨ s1 = "shellyem3-" ++ s2 ∨ s2 = "shellyem3-" ++ s1 := by
  by_cases h1 : "shellyem3-".data <+: s1.data <;> by_cases h2 : "shellyem3-".data <+: s2.data
  · left
    rw [cutPrefix_found s1 _ h1, cutPrefix_found s2 _ h2, h]
  · right; left
    have := cutPrefix_found s1 _ h1
    rw [h, cutPrefix_not_found s2 _ h2] at this
    exact this
  · right; right
    have := cutPrefix_found s2 _ h2
    rw [← h, cutPrefix_not_found s1 _ h1] at this
    exact this
  · left
    rw [cutPrefix_not_found s1 _ h1, cutPrefix_not_found s2 _ h2] at h
    exact h

/-- Claim C14 fails.  `getMsgInfo` gives the device identity `foo` both to a
topic with device segment `shellyem3-foo` and to one with device segment
`foo`; with the same namespace, group, phase and measurement the scrape
sends two metrics of the same family with the same label values. -/
theorem device_identity_counterexample :
    getMsgInfo "shellies/shellyem3-foo/emeter/0/power" = some ("foo", "0", "power") ∧
    getMsgInfo "shellies/foo/emeter/0/power" = some ("foo", "0", "power") ∧
    strings.Split "shellies/shellyem3-foo/emeter/0/power" '/' =
      ["shellies", "shellyem3-foo", "emeter", "0", "power"] ∧
    strings.Split "shellies/foo/emeter/0/power" '/' =
      ["shellies", "foo", "emeter", "0", "power"] ∧
    (Collect (messageLoop exampleParseFloat NewCollector
        [⟨"shellies/shellyem3-foo/emeter/0/power", "1"⟩,
         ⟨"shellies/foo/emeter/0/power", "2"⟩])).map Prod.fst =
      some [MustNewConstMetric powerDesc .GaugeValue 2 ["foo", "0"],
            MustNewConstMetric powerDesc .GaugeValue 1 ["foo", "0"],
            MustNewConstMetric upDesc .GaugeValue 1 [""]] := by
  refine ⟨by decide, by decide, by decide, by decide, by decide⟩

/-- Claim C14 as amended.  For two topics of five path segments
(namespace, device, group, phase, measurement), `getMsgInfo` returns the
device segment with its leading `shellyem3-` removed when it has one, and
the segment itself otherwise.  If it returns the same device identity for
both topics, their device segments are equal or one is `shellyem3-`
followed by the other; they are equal when both start with `shellyem3-` or
neither does.  In that case two different device segments never give two
metrics with the same label values. -/
theorem device_identity {F : Type} (n1 s1 g1 p1 m1 n2 s2 g2 p2 m2 : String)
    (h1 : ∀ x ∈ [n1, s1, g1, p1, m1], '/' ∉ x.data)
    (h2 : ∀ x ∈ [n2, s2, g2, p2, m2], '/' ∉ x.data) :
    getMsgInfo (n1 ++ "/" ++ s1 ++ "/" ++ g1 ++ "/" ++ p1 ++ "/" ++ m1) =
      some ((strings.CutPrefix s1 "shellyem3-").1, p1, m1) ∧
    getMsgInfo (n2 ++ "/" ++ s2 ++ "/" ++ g2 ++ "/" ++ p2 ++ "/" ++ m2) =
      some ((strings.CutPrefix s2 "shellyem3-").1, p2, m2) ∧
    ((getMsgInfo (n1 ++ "/" ++ s1 ++ "/" ++ g1 ++ "/" ++ p1 ++ "/" ++ m1)).map (fun r => r.1) =
        (getMsgInfo (n2 ++ "/" ++ s2 ++ "/" ++ g2 ++ "/" ++ p2 ++ "/" ++ m2)).map (fun r => r.1) →
      (s1 = s2 ∨ s1 = "shellyem3-" ++ s2 ∨ s2 = "shellyem3-" ++ s1) ∧
      ((decide ("shellyem3-".data <+: s1.data) = decide ("shellyem3-".data <+: s2.data)) →
        s1 = s2)) ∧
    ((decide ("shellyem3-".data <+: s1.data) = decide ("shellyem3-".data <+: s2.data)) →
      s1 ≠ s2 →
      ∀ (v1 v2 : F) (ms1 ms2 : List (Metric F)),
        collectEntry { Key := n1 ++ "/" ++ s1 ++ "/" ++ g1 ++ "/" ++ p1 ++ "/" ++ m1,
                       Value := v1 } = some ms1 →
        collectEntry { Key := n2 ++ "/" ++ s2 ++ "/" ++ g2 ++ "/" ++ p2 ++ "/" ++ m2,
                       Value := v2 } = some ms2 →
        ∀ a ∈ ms1, ∀ b ∈ ms2, a.labelValues ≠ b.labelValues) := by
  have e1 := getMsgInfo_five n1 s1 g1 p1 m1 (h1 _ (by simp)) (h1 _ (by simp)) (h1 _ (by simp))
    (h1 _ (by simp)) (h1 _ (by simp))
  have e2 := getMsgInfo_five n2 s2 g2 p2 m2 (h2 _ (by simp)) (h2 _ (by simp)) (h2 _ (by simp))
    (h2 _ (by simp)) (h2 _ (by simp))
  have same : (decide ("shellyem3-".data <+: s1.data) = decide ("shellyem3-".data <+: s2.data)) →
      (strings.CutPrefix s1 "shellyem3-").1 = (strings.CutPrefix s2 "shellyem3-").1 →
      s1 = s2 := by
    intro hp hc
    by_cases q1 : "shellyem3-".data <+: s1.data
    · have q2 : "shellyem3-".data <+: s2.data := by simpa [q1] using hp
      rw [cutPrefix_found s1 _ q1, cutPrefix_found s2 _ q2, hc]
    · have q2 : ¬ "shellyem3-".data <+: s2.data := by simpa [q1] using hp
      rw [cutPrefix_not_found s1 _ q1, cutPrefix_not_found s2 _ q2] at hc
      exact hc
  refine ⟨e1, e2, ?_, ?_⟩
  · intro h
    rw [e1, e2] at h
    simp only [Option.map_some', Option.some.injEq] at h
    exact ⟨cutPrefix_eq s1 s2 h, fun hp => same hp h⟩
  · intro hp hne v1 v2 ms1 ms2 hc1 hc2 a ha b hb hl
    obtain ⟨es1, hes1, _, hv1⟩ := collectEntry_of_info
      { Key := n1 ++ "/" ++ s1 ++ "/" ++ g1 ++ "/" ++ p1 ++ "/" ++ m1, Value := v1 } _ _ _ e1
    obtain ⟨es2, hes2, _, hv2⟩ := collectEntry_of_info
      { Key := n2 ++ "/" ++ s2 ++ "/" ++ g2 ++ "/" ++ p2 ++ "/" ++ m2, Value := v2 } _ _ _ e2
    rw [hc1] at hes1
    rw [hc2] at hes2
    simp only [Option.some.injEq] at hes1 hes2
    subst hes1 hes2
    rw [(hv1 a ha).2, (hv2 b hb).2] at hl
    simp only [List.cons.injEq, and_true] at hl
    exact hne (same hp hl.1)



theorem device_identity_witness :
    ((∀ x ∈ ["shellies", "shellyem3-foo", "emeter", "0", "power"], '/' ∉ x.data) ∧
      (∀ x ∈ ["shellies", "foo", "emeter", "0", "power"], '/' ∉ x.data) ∧
      (∀ x ∈ ["shellies", "shellyem3-bar", "emeter", "0", "power"], '/' ∉ x.data)) ∧
    ("shellyem3-foo" = "foo" ∨ "shellyem3-foo" = "shellyem3-" ++ "foo" ∨
      "foo" = "shellyem3-" ++ "shellyem3-foo") ∧
    (∀ a ∈ [MustNewConstMetric powerDesc .GaugeValue (1 : Int) ["foo", "0"]],
      ∀ b ∈ [MustNewConstMetric powerDesc .GaugeValue (2 : Int) ["bar", "0"]],
        a.labelValues ≠ b.labelValues) :=
  ⟨⟨by decide, by decide, by decide⟩,
    ((@device_identity Int "shellies" "shellyem3-foo" "emeter" "0" "power"
      "shellies" "foo" "emeter" "0" "power" (by decide) (by decide)).2.2.1 (by decide)).1,
    (@device_identity Int "shellies" "shellyem3-foo" "emeter" "0" "power"
      "shellies" "shellyem3-bar" "emeter" "0" "power" (by decide) (by decide)).2.2.2
      (by decide) (by decide) 1 2 _ _ (by decide) (by decide)⟩

/-- What the loop body sends for the entry of a well-shaped topic with one
of the eight measurement names: one gauge of the family of that name. -/
theorem collectEntry_topic {F : Type} (D P : String) (v : F)
    (hD : '/' ∉ D.data) (hP : '/' ∉ P.data) (M : String) (d : Desc)
    (hp : (M, d) ∈ [("energy", energyDesc), ("returned_energy", energyReturnedDesc),
        ("total", totalDesc), ("total_returned", totalReturnedDesc), ("power", powerDesc),
        ("voltage", voltageDesc), ("current", currentDesc), ("pf", pfDesc)]) :
    collectEntry { Key := "shellies/shellyem3-" ++ D ++ "/emeter/" ++ P ++ "/" ++ M, Value := v }
      = some [MustNewConstMetric d .GaugeValue v [D, P]] := by
  simp only [List.mem_cons, List.mem_singleton, List.not_mem_nil, or_false,
    Prod.mk.injEq] at hp
  have hM : '/' ∉ M.data := by
    rcases hp with h | h | h | h | h | h | h | h <;>
    · rw [h.1]
      decide
  have hi := getMsgInfo_topic D P M hD hP hM
  simp only [collectEntry, hi, Option.bind_eq_bind, Option.some_bind]
  rcases hp with h | h | h | h | h | h | h | h <;>
  · obtain ⟨rfl, rfl⟩ := h
    rfl

/-- The loop of `collect` sends all that the loop body sends for an entry
of the snapshot. -/
theorem collectLoop_mem {F : Type} (tv : List (Entry F)) (out : List (Metric F))
    (h : collectLoop tv = some out) (kv : Entry F) (hkv : kv ∈ tv) (ms : List (Metric F))
    (hms : collectEntry kv = some ms) : ∀ m ∈ ms, m ∈ out := by
  induction tv generalizing out with
  | nil => simp at hkv
  | cons x xs ih =>
    simp only [collectLoop, Option.bind_eq_bind, Option.bind_eq_some, Option.pure_def,
      Option.some.injEq] at h
    obtain ⟨es, hes, rs, hrs, rfl⟩ := h
    intro m hm
    rcases List.mem_cons.mp hkv with rfl | hmem
    · rw [hms] at hes
      simp only [Option.some.injEq] at hes
      subst hes
      exact List.mem_append_left _ hm
    · exact List.mem_append_right _ (ih rs hrs hmem m hm)

/-- The loop of `collect` sends nothing but what the loop body sends for
some entry of the snapshot. -/
theorem collectLoop_mem_inv {F : Type} (tv : List (Entry F)) (out : List (Metric F))
    (h : collectLoop tv = some out) :
    ∀ m ∈ out, ∃ kv ∈ tv, ∃ ms, collectEntry kv = some ms ∧ m ∈ ms := by
  induction tv generalizing out with
  | nil =>
    simp only [collectLoop, Option.some.injEq] at h
    subst h
    intro m hm
    simp at hm
  | cons x xs ih =>
    simp only [collectLoop, Option.bind_eq_bind, Option.bind_eq_some, Option.pure_def,
      Option.some.injEq] at h
    obtain ⟨es, hes, rs, hrs, rfl⟩ := h
    intro m hm
    rcases List.mem_append.mp hm with h1 | h2
    · exact ⟨x, List.mem_cons_self _ _, es, hes, h1⟩
    · obtain ⟨kv, hkv, ms, hms, hmm⟩ := ih rs hrs m h2
      exact ⟨kv, List.mem_cons_of_mem _ hkv, ms, hms, hmm⟩

theorem collectEntry_value {F : Type} (kv : Entry F) (ms : List (Metric F))
    (h : collectEntry kv = some ms) : ∀ m ∈ ms, m.value = kv.Value := by
  cases hg : getMsgInfo kv.Key with
  | none => simp [collectEntry, hg] at h
  | some r =>
    obtain ⟨d, p, l⟩ := r
    obtain ⟨es, hes, _, hv⟩ := collectEntry_of_info kv d p l hg
    rw [h] at hes
    simp only [Option.some.injEq] at hes
    subst hes
    exact fun m hm => (hv m hm).1



/-- Claim C1, drain-once.  For every content of the live map,
`swapTopicValueCollector` returns exactly the entries of that map (an entry
is in the list exactly when the map binds its key to its value, and no key
occurs twice) and leaves the live map empty, binding no key; a scrape of the
collector so left sends the single metric `shelly3em_up` with value 1.  For
the collector reached from `NewCollector` by any sequence of messages, the
first scrape returns: it sends data metrics and then `shelly3em_up` with
value 1; for every key `shellies/shellyem3-D/emeter/P/M` that the map binds
to `v`, with `M` one of the eight measurement names, the gauge of the family
of `M` with labels `D`, `P` and value `v` is among the data metrics; every
data metric is sent by the loop body for an entry of the map and carries
its value; there are as many data metrics as entries with a known last
segment.  The scrape that follows with no message in between sends no data
metric and only `shelly3em_up` with value 1. -/
theorem drain_once {F : Type} [Zero F] [One F] (c : Collector F)
    (parseFloat : String → Except String F) (msgs : List mqtt.Message) :
    ((∀ k v, ({ Key := k, Value := v } : Entry F) ∈ (swapTopicValueCollector c).1 ↔
        c.topicValueCollector.lookup k = some v) ∧
      ((swapTopicValueCollector c).1.map Entry.Key).Nodup ∧
      (swapTopicValueCollector c).2.topicValueCollector = ∅ ∧
      (∀ k, (swapTopicValueCollector c).2.topicValueCollector.lookup k = none) ∧
      Collect (swapTopicValueCollector c).2 =
        some ([MustNewConstMetric upDesc .GaugeValue 1 [""]], (swapTopicValueCollector c).2)) ∧
    ∃ out c1,
      Collect (messageLoop parseFloat NewCollector msgs) =
        some (out ++ [MustNewConstMetric upDesc .GaugeValue 1 [""]], c1) ∧
      (∀ (D P : String) (v : F),
        ∀ p ∈ [("energy", energyDesc), ("returned_energy", energyReturnedDesc),
          ("total", totalDesc), ("total_returned", totalReturnedDesc), ("power", powerDesc),
          ("voltage", voltageDesc), ("current", currentDesc), ("pf", pfDesc)],
        '/' ∉ D.data → '/' ∉ P.data →
        (messageLoop parseFloat NewCollector msgs).topicValueCollector.lookup
          ("shellies/shellyem3-" ++ D ++ "/emeter/" ++ P ++ "/" ++ p.1) = some v →
        MustNewConstMetric p.2 .GaugeValue v [D, P] ∈ out) ∧
      (∀ m ∈ out, ∃ k v,
        (messageLoop parseFloat NewCollector msgs).topicValueCollector.lookup k = some v ∧
        m.value = v ∧
        ∃ ms, collectEntry ({ Key := k, Value := v } : Entry F) = some ms ∧ m ∈ ms) ∧
      out.length =
        ((swapTopicValueCollector (messageLoop parseFloat NewCollector msgs)).1.filter
          (fun kv => decide (((strings.Split kv.Key '/').getLast?).getD "" ∈
            ["energy", "returned_energy", "total", "total_returned", "power", "voltage",
              "current", "pf"]))).length ∧
      c1.topicValueCollector = ∅ ∧
      Collect c1 = some ([MustNewConstMetric upDesc .GaugeValue 1 [""]], c1) := by
  have hsecond : ∀ d : Collector F, Collect (swapTopicValueCollector d).2 =
      some ([MustNewConstMetric upDesc .GaugeValue 1 [""]], (swapTopicValueCollector d).2) := by
    intro d
    rw [Collect_eq, (snapshot_empty d).1, (snapshot_empty d).2]
    rfl
  have hmemiff : ∀ (d : Collector F) k v,
      ({ Key := k, Value := v } : Entry F) ∈ (swapTopicValueCollector d).1 ↔
        d.topicValueCollector.lookup k = some v := by
    intro d k v
    rw [(snapshot_spec d).1.mem_iff, mem_Entries_iff]
  refine ⟨⟨hmemiff c, ?_, rfl, fun k => rfl, hsecond c⟩, ?_⟩
  · exact (List.pairwise_map.mpr (snapshot_spec c).2).imp (fun h => ne_of_lt h)
  have hinv := EmeterKeys_messageLoop parseFloat msgs NewCollector EmeterKeys_NewCollector
  obtain ⟨out, hout⟩ := Option.isSome_iff_exists.mp
    (collectLoop_isSome _ (snapshot_keys_emeter _ hinv))
  refine ⟨out, (swapTopicValueCollector (messageLoop parseFloat NewCollector msgs)).2,
    ?_, ?_, ?_, collectLoop_length _ _ hout, rfl, hsecond _⟩
  · rw [Collect_eq, hout]
    rfl
  · intro D P v p hp hD hP hl
    obtain ⟨M, d⟩ := p
    exact collectLoop_mem _ _ hout _ ((hmemiff _ _ _).mpr hl) _
      (collectEntry_topic D P v hD hP M d hp) _ (List.mem_singleton_self _)
  · intro m hm
    obtain ⟨kv, hkv, ms, hms, hmm⟩ := collectLoop_mem_inv _ _ hout m hm
    exact ⟨kv.Key, kv.Value, (hmemiff _ _ _).mp hkv, collectEntry_value kv ms hms m hmm,
      ms, hms, hmm⟩

theorem drain_once_witness :
    ((messageLoop exampleParseFloat NewCollector
        [⟨"shellies/shellyem3-w/emeter/0/voltage", "231"⟩,
         ⟨"shellies/shellyem3-w/emeter/0/current", "1"⟩]).topicValueCollector.lookup
        ("shellies/shellyem3-" ++ "w" ++ "/emeter/" ++ "0" ++ "/" ++ "voltage") = some 231) ∧
    ({ Key := "shellies/shellyem3-" ++ "w" ++ "/emeter/" ++ "0" ++ "/" ++ "voltage",
       Value := 231 } : Entry Int) ∈
      (swapTopicValueCollector (messageLoop exampleParseFloat NewCollector
        [⟨"shellies/shellyem3-w/emeter/0/voltage", "231"⟩,
         ⟨"shellies/shellyem3-w/emeter/0/current", "1"⟩])).1 ∧
    (∃ out c1,
      Collect (messageLoop exampleParseFloat NewCollector
        [⟨"shellies/shellyem3-w/emeter/0/voltage", "231"⟩,
         ⟨"shellies/shellyem3-w/emeter/0/current", "1"⟩]) =
        some (out ++ [MustNewConstMetric upDesc .GaugeValue 1 [""]], c1) ∧
      MustNewConstMetric voltageDesc .GaugeValue 231 ["w", "0"] ∈ out ∧
      Collect c1 = some ([MustNewConstMetric upDesc .GaugeValue 1 [""]], c1)) ∧
    (Collect (messageLoop exampleParseFloat NewCollector
        [⟨"shellies/shellyem3-w/emeter/0/voltage", "231"⟩,
         ⟨"shellies/shellyem3-w/emeter/0/current", "1"⟩])).map Prod.fst =
      some [MustNewConstMetric currentDesc .GaugeValue 1 ["w", "0"],
            MustNewConstMetric voltageDesc .GaugeValue 231 ["w", "0"],
            MustNewConstMetric upDesc .GaugeValue 1 [""]] ∧
    ((Collect (messageLoop exampleParseFloat NewCollector
        [⟨"shellies/shellyem3-w/emeter/0/voltage", "231"⟩,
         ⟨"shellies/shellyem3-w/emeter/0/current", "1"⟩])).bind
        (fun r => Collect r.2)).map Prod.fst =
      some [MustNewConstMetric upDesc .GaugeValue 1 [""]] ∧
    (swapTopicValueCollector (messageLoop exampleParseFloat NewCollector
        [⟨"shellies/shellyem3-w/emeter/0/voltage", "231"⟩,
         ⟨"shellies/shellyem3-w/emeter/0/current", "1"⟩])).1 =
      [{ Key := "shellies/shellyem3-w/emeter/0/current", Value := 1 },
       { Key := "shellies/shellyem3-w/emeter/0/voltage", Value := 231 }] := by
  have hl : (messageLoop exampleParseFloat NewCollector
        [⟨"shellies/shellyem3-w/emeter/0/voltage", "231"⟩,
         ⟨"shellies/shellyem3-w/emeter/0/current", "1"⟩]).topicValueCollector.lookup
        ("shellies/shellyem3-" ++ "w" ++ "/emeter/" ++ "0" ++ "/" ++ "voltage") = some 231 := by
    decide
  obtain ⟨hA, out, c1, hC, hmem, _, _, _, hsec⟩ := drain_once
    (messageLoop exampleParseFloat NewCollector
        [⟨"shellies/shellyem3-w/emeter/0/voltage", "231"⟩,
         ⟨"shellies/shellyem3-w/emeter/0/current", "1"⟩])
    exampleParseFloat
    [⟨"shellies/shellyem3-w/emeter/0/voltage", "231"⟩,
     ⟨"shellies/shellyem3-w/emeter/0/current", "1"⟩]
  exact ⟨hl, (hA.1 _ _).mpr hl,
    ⟨out, c1, hC, hmem "w" "0" 231 ("voltage", voltageDesc) (by decide) (by decide)
      (by decide) hl, hsec⟩,
    by decide, by decide, by decide⟩

end threeem

/-! ## The H&T collector -/

namespace ht

/-- Claim C4, the code at a fresh collector.  When `json.Unmarshal` decodes
the payload `{}` of the placeholder message to the zero `Info`, the scrape
of a freshly constructed collector sends five data metrics (temperature in
`c` and `f`, humidity, battery voltage and level, all of value 0 and with an
empty device label) before `shellyht_up` with value 1. -/
theorem fresh_scrape_sends_zero_readings {F : Type} [Zero F] [One F] [IntCast F] (lib : Lib F)
    (h : lib.jsonUnmarshal "\x7b\x7d" = .ok Info.zero) :
    Collect lib NewCollector =
      [MustNewConstMetric tmpDesc .GaugeValue 0 ["", "c"],
       MustNewConstMetric tmpDesc .GaugeValue 0 ["", "f"],
       MustNewConstMetric humDesc .GaugeValue 0 ["", "%"],
       MustNewConstMetric batDesc .GaugeValue 0 ["", "V"],
       MustNewConstMetric batDesc .GaugeValue (((0 : Int) : F)) ["", "%"],
       MustNewConstMetric upDesc .GaugeValue 1 [""]] := by
  have hs : strings.HasSuffix NewCollector.lastMSG.msg.topic "/info" = true := by decide
  have hp : NewCollector.lastMSG.msg.payload = "\x7b\x7d" := rfl
  simp only [Collect, collect, hs, if_true, hp, h]
  rfl

theorem fresh_scrape_sends_zero_readings_witness :
    exampleLib.jsonUnmarshal "\x7b\x7d" = .ok Info.zero ∧
    Collect exampleLib NewCollector =
      [MustNewConstMetric tmpDesc .GaugeValue 0 ["", "c"],
       MustNewConstMetric tmpDesc .GaugeValue 0 ["", "f"],
       MustNewConstMetric humDesc .GaugeValue 0 ["", "%"],
       MustNewConstMetric batDesc .GaugeValue 0 ["", "V"],
       MustNewConstMetric batDesc .GaugeValue 0 ["", "%"],
       MustNewConstMetric upDesc .GaugeValue 1 [""]] :=
  ⟨rfl, fresh_scrape_sends_zero_readings exampleLib rfl⟩

/-- Claim C10, unit fan-out.  For a retained message whose topic ends in
`/info` and whose payload decodes to `info`, `collect` sends exactly five
data metrics in a fixed order and no error; exactly two of them belong to
`shellyht_temperature` (labels `device`, `unit`): both carry the device
label `info.Mac`, the first has unit `c` and value `info.Tmp.TC`, the second
unit `f` and value `info.Tmp.TF`, each value taken from the payload as it
is. -/
theorem unit_fan_out {F : Type} [IntCast F] (lib : Lib F) (c : Collector) (info : Info F)
    (ht : strings.HasSuffix c.lastMSG.msg.topic "/info" = true)
    (hd : lib.jsonUnmarshal c.lastMSG.msg.payload = .ok info) :
    collect lib c =
      ([MustNewConstMetric tmpDesc .GaugeValue info.Tmp.TC [info.Mac, "c"],
        MustNewConstMetric tmpDesc .GaugeValue info.Tmp.TF [info.Mac, "f"],
        MustNewConstMetric humDesc .GaugeValue info.Hum.Value [info.Mac, "%"],
        MustNewConstMetric batDesc .GaugeValue info.Bat.Voltage [info.Mac, "V"],
        MustNewConstMetric batDesc .GaugeValue (info.Bat.Value : F) [info.Mac, "%"]], none) ∧
    (collect lib c).1.filter (fun m => decide (m.desc.fqName = "shellyht_temperature")) =
      [{ desc := tmpDesc, valueType := .GaugeValue, value := info.Tmp.TC,
         labelValues := [info.Mac, "c"] },
       { desc := tmpDesc, valueType := .GaugeValue, value := info.Tmp.TF,
         labelValues := [info.Mac, "f"] }] ∧
    tmpDesc.variableLabels = ["device", "unit"] := by
  have hc : collect lib c =
      ([MustNewConstMetric tmpDesc .GaugeValue info.Tmp.TC [info.Mac, "c"],
        MustNewConstMetric tmpDesc .GaugeValue info.Tmp.TF [info.Mac, "f"],
        MustNewConstMetric humDesc .GaugeValue info.Hum.Value [info.Mac, "%"],
        MustNewConstMetric batDesc .GaugeValue info.Bat.Voltage [info.Mac, "V"],
        MustNewConstMetric batDesc .GaugeValue (info.Bat.Value : F) [info.Mac, "%"]], none) := by
    simp only [collect, ht, if_true, hd]
  refine ⟨hc, ?_, rfl⟩
  rw [hc]
  have h1 : decide (tmpDesc.fqName = "shellyht_temperature") = true := by decide
  have h2 : decide (humDesc.fqName = "shellyht_temperature") = false := by decide
  have h3 : decide (batDesc.fqName = "shellyht_temperature") = false := by decide
  simp [MustNewConstMetric, List.filter_cons, h1, h2, h3]

theorem unit_fan_out_witness :
    (strings.HasSuffix "shellies/shellyht-1/info" "/info" = true ∧
      exampleLib.jsonUnmarshal examplePayload = .ok exampleInfo) ∧
    (collect exampleLib
        { lastMSG := { topic := "shellies/shellyht-1/info",
                       msg := ⟨"shellies/shellyht-1/info", examplePayload⟩ } }).1.filter
      (fun m => decide (m.desc.fqName = "shellyht_temperature")) =
      [{ desc := tmpDesc, valueType := .GaugeValue, value := 21, labelValues := ["AABBCC", "c"] },
       { desc := tmpDesc, valueType := .GaugeValue, value := 70,
         labelValues := ["AABBCC", "f"] }] :=
  ⟨⟨by decide, rfl⟩,
    (unit_fan_out exampleLib
      { lastMSG := { topic := "shellies/shellyht-1/info",
                     msg := ⟨"shellies/shellyht-1/info", examplePayload⟩ } }
      exampleInfo (by decide) rfl).2.1⟩

/-- Every metric of a scrape has as many label values as its descriptor has
labels. -/
theorem ht_Collect_label_count {F : Type} [Zero F] [One F] [IntCast F] (lib : Lib F)
    (c : Collector) :
    ∀ m ∈ Collect lib c, m.labelValues.length = m.desc.variableLabels.length := by
  intro m hm
  unfold Collect collect at hm
  split_ifs at hm
  · cases hu : lib.jsonUnmarshal c.lastMSG.msg.payload with
    | error e =>
      simp only [hu, List.nil_append, List.mem_singleton] at hm
      subst hm; rfl
    | ok info =>
      simp only [hu, List.cons_append, List.nil_append, List.mem_cons, List.mem_singleton,
        List.not_mem_nil, or_false] at hm
      rcases hm with rfl | rfl | rfl | rfl | rfl | rfl <;> rfl
  · simp only [List.nil_append, List.mem_singleton] at hm
    subst hm; rfl

/-- The three outcomes of `collect`: a topic that is not an `/info` topic,
a payload that fails to decode, a payload that decodes. -/
theorem collect_cases {F : Type} [IntCast F] (lib : Lib F) (c : Collector) :
    (strings.HasSuffix c.lastMSG.msg.topic "/info" = false ∧ collect lib c = ([], none)) ∨
    (∃ err, strings.HasSuffix c.lastMSG.msg.topic "/info" = true ∧
      lib.jsonUnmarshal c.lastMSG.msg.payload = .error err ∧
      collect lib c = ([], some ("collect: json unmarshal failed: " ++ err ++ " for data: "
        ++ lib.quote c.lastMSG.msg.payload))) ∨
    (∃ info, strings.HasSuffix c.lastMSG.msg.topic "/info" = true ∧
      lib.jsonUnmarshal c.lastMSG.msg.payload = .ok info ∧
      collect lib c =
        ([MustNewConstMetric tmpDesc .GaugeValue info.Tmp.TC [info.Mac, "c"],
          MustNewConstMetric tmpDesc .GaugeValue info.Tmp.TF [info.Mac, "f"],
          MustNewConstMetric humDesc .GaugeValue info.Hum.Value [info.Mac, "%"],
          MustNewConstMetric batDesc .GaugeValue info.Bat.Voltage [info.Mac, "V"],
          MustNewConstMetric batDesc .GaugeValue (info.Bat.Value : F) [info.Mac, "%"]],
         none)) := by
  by_cases hs : strings.HasSuffix c.lastMSG.msg.topic "/info" = true
  · cases hu : lib.jsonUnmarshal c.lastMSG.msg.payload with
    | error err =>
      refine Or.inr (Or.inl ⟨err, hs, rfl, ?_⟩)
      simp only [collect, hs, if_true, hu]
    | ok info =>
      refine Or.inr (Or.inr ⟨info, hs, rfl, ?_⟩)
      simp only [collect, hs, if_true, hu]
  · have hs2 : strings.HasSuffix c.lastMSG.msg.topic "/info" = false := by simpa using hs
    exact Or.inl ⟨hs2, by simp [collect, hs2]⟩

theorem errorText_ne_empty (err q : String) :
    "collect: json unmarshal failed: " ++ err ++ " for data: " ++ q ≠ "" := by
  intro h
  have h1 := congrArg String.length h
  simp only [String.length_append] at h1
  have h2 : "collect: json unmarshal failed: ".length = 32 := by decide
  have h3 : "".length = 0 := by decide
  omega

theorem collect_data_not_up {F : Type} [IntCast F] (lib : Lib F) (c : Collector) :
    ∀ m ∈ (collect lib c).1, m.desc ≠ upDesc := by
  intro m hm
  rcases collect_cases lib c with ⟨_, h⟩ | ⟨err, _, _, h⟩ | ⟨info, _, _, h⟩
  · rw [h] at hm; simp at hm
  · rw [h] at hm; simp at hm
  · rw [h] at hm
    simp only [List.mem_cons, List.mem_singleton, List.not_mem_nil, or_false] at hm
    have h1 : tmpDesc ≠ upDesc := by decide
    have h2 : humDesc ≠ upDesc := by decide
    have h3 : batDesc ≠ upDesc := by decide
    rcases hm with rfl | rfl | rfl | rfl | rfl <;> assumption

set_option maxRecDepth 20000

/-- Claim C11 fails.  The collector retains the truncated report `{"mac":`
on an `/info` topic; decoding fails and the scrape is `shellyht_up` with
value 0 and the error text as status.  The `%q` verb prints the payload in
double quotes with a backslash before each of its double quotes, so the
error text does not contain the raw payload. -/
theorem liveness_raw_payload_counterexample :
    strings.HasSuffix "shellies/shellyht-1/info" "/info" = true ∧
    goQuote truncatedPayload = "\"\x7b\\\"mac\\\":\"" ∧
    Collect exampleLibQ
        { lastMSG := { topic := "shellies/shellyht-1/info",
                       msg := ⟨"shellies/shellyht-1/info", truncatedPayload⟩ } } =
      [MustNewConstMetric upDesc .GaugeValue 0
        ["collect: json unmarshal failed: unexpected end of JSON input for data: \"\x7b\\\"mac\\\":\""]] ∧
    ¬ (truncatedPayload.data <:+:
      "collect: json unmarshal failed: unexpected end of JSON input for data: \"\x7b\\\"mac\\\":\"".data) := by
  refine ⟨by decide, by decide, by decide, by decide⟩

/-- Claim C11 as amended.  For every retained message the scrape is the
data metrics of `collect` followed by one metric of `shellyht_up`, a family
to which no data metric belongs.  That metric has value 1 and an empty
status label exactly when `collect` returns no error, which is when the
retained topic does not end in `/info` or the payload decodes.  Otherwise,
that is exactly when the retained topic ends in `/info` and the payload
fails to decode, no data metric is sent, the metric has value 0 and its
status label is the error text `collect: json unmarshal failed: ERR for
data: Q`, with `ERR` the text of the decoding error and `Q` the retained
payload as the `%q` verb prints it: the text ends with the payload in its
quoted form. -/
theorem liveness_reporting {F : Type} [Zero F] [One F] [IntCast F] (lib : Lib F)
    (c : Collector) :
    (∃ up : Metric F,
      Collect lib c = (collect lib c).1 ++ [up] ∧
      up.desc = upDesc ∧ up.valueType = .GaugeValue ∧
      (∀ m ∈ (collect lib c).1, m.desc ≠ upDesc) ∧
      ((up.value = 1 ∧ up.labelValues = [""]) ↔ (collect lib c).2 = none) ∧
      ∀ e, (collect lib c).2 = some e →
        up.value = 0 ∧ up.labelValues = [e] ∧ (collect lib c).1 = [] ∧
        strings.HasSuffix c.lastMSG.msg.topic "/info" = true ∧
        (∃ err, lib.jsonUnmarshal c.lastMSG.msg.payload = .error err ∧
          e = "collect: json unmarshal failed: " ++ err ++ " for data: "
            ++ lib.quote c.lastMSG.msg.payload) ∧
        (lib.quote c.lastMSG.msg.payload).data <:+ e.data) ∧
    (∀ err, strings.HasSuffix c.lastMSG.msg.topic "/info" = true →
      lib.jsonUnmarshal c.lastMSG.msg.payload = .error err →
      Collect lib c =
        [MustNewConstMetric upDesc .GaugeValue 0
          ["collect: json unmarshal failed: " ++ err ++ " for data: "
            ++ lib.quote c.lastMSG.msg.payload]]) ∧
    ((collect lib c).2 = none ↔
      (strings.HasSuffix c.lastMSG.msg.topic "/info" = false ∨
        ∃ info, lib.jsonUnmarshal c.lastMSG.msg.payload = .ok info)) := by
  have hdata := collect_data_not_up lib c
  refine ⟨?_, ?_, ?_⟩
  · rcases collect_cases lib c with ⟨_, h⟩ | ⟨err, hs, hu, h⟩ | ⟨info, _, _, h⟩
    · refine ⟨MustNewConstMetric upDesc .GaugeValue 1 [""], ?_, rfl, rfl, hdata, ?_, ?_⟩
      · simp only [Collect, h]
      · simp [h, MustNewConstMetric]
      · intro e he; simp [h] at he
    · refine ⟨MustNewConstMetric upDesc .GaugeValue 0
        ["collect: json unmarshal failed: " ++ err ++ " for data: "
          ++ lib.quote c.lastMSG.msg.payload], ?_, rfl, rfl, hdata, ?_, ?_⟩
      · simp only [Collect, h]
      · constructor
        · rintro ⟨_, hl⟩
          simp only [MustNewConstMetric, List.cons.injEq, and_true] at hl
          exact absurd hl (errorText_ne_empty _ _)
        · intro hn; simp [h] at hn
      · intro e he
        simp only [h, Option.some.injEq] at he
        subst he
        refine ⟨rfl, rfl, by rw [h], hs, ⟨err, hu, rfl⟩, ?_⟩
        simp only [String.data_append]
        exact List.suffix_append _ _
    · refine ⟨MustNewConstMetric upDesc .GaugeValue 1 [""], ?_, rfl, rfl, hdata, ?_, ?_⟩
      · simp only [Collect, h]
      · simp [h, MustNewConstMetric]
      · intro e he; simp [h] at he
  · intro err hs hu
    simp only [Collect, collect, hs, if_true, hu, List.nil_append]
  · rcases collect_cases lib c with ⟨hs, h⟩ | ⟨err, hs, hu, h⟩ | ⟨info, hs, hu, h⟩
    · simp [h, hs]
    · simp [h, hs, hu]
    · simp [h, hu]

theorem liveness_reporting_witness :
    (strings.HasSuffix "shellies/shellyht-1/info" "/info" = true ∧
      exampleLibQ.jsonUnmarshal truncatedPayload = .error "unexpected end of JSON input") ∧
    Collect exampleLibQ
        { lastMSG := { topic := "shellies/shellyht-1/info",
                       msg := ⟨"shellies/shellyht-1/info", truncatedPayload⟩ } } =
      [MustNewConstMetric upDesc .GaugeValue 0
        ["collect: json unmarshal failed: " ++ "unexpected end of JSON input" ++ " for data: "
          ++ exampleLibQ.quote truncatedPayload]] ∧
    (∃ up : Metric Int,
      Collect exampleLibQ
          { lastMSG := { topic := "shellies/shellyht-1/info",
                         msg := ⟨"shellies/shellyht-1/info", truncatedPayload⟩ } } = [up] ∧
      up.value = 0 ∧
      up.labelValues =
        ["collect: json unmarshal failed: unexpected end of JSON input for data: \"\x7b\\\"mac\\\":\""]) := by
  have h := liveness_reporting exampleLibQ
    { lastMSG := { topic := "shellies/shellyht-1/info",
                   msg := ⟨"shellies/shellyht-1/info", truncatedPayload⟩ } }
  obtain ⟨⟨up, h1, _, _, _, _, h6⟩, hfail, _⟩ := h
  obtain ⟨hv, hl, hd, _, _, _⟩ := h6
    "collect: json unmarshal failed: unexpected end of JSON input for data: \"\x7b\\\"mac\\\":\""
    (by decide)
  refine ⟨⟨by decide, rfl⟩, hfail _ (by decide) rfl, up, ?_, hv, hl⟩
  rw [h1, hd]
  rfl

end ht

/-! ## The H&T Gen3 collector -/

namespace htgen3

/-- Claim C9 fails.  The collector retains a full status report received on
`shellyhtg3-1/events/rpc`, whose scrape sends five data metrics.  A message
on the topic `shellyhtg3-1/status`, which does not end in `/rpc`, with a
payload whose method is `NotifyFullStatus`, is not ignored: it replaces the
retained message, and the next scrape sends no data metric. -/
theorem topic_suffix_filter_counterexample :
    strings.HasSuffix "shellyhtg3-1/status" "/rpc" = false ∧
    messageLoopStep exampleLib exampleRetained ⟨"shellyhtg3-1/status", examplePayload⟩
      ≠ exampleRetained ∧
    Collect exampleLib exampleRetained =
      [MustNewConstMetric tmpDesc .GaugeValue 21 ["shellyhtg3-1", "c"],
       MustNewConstMetric tmpDesc .GaugeValue 70 ["shellyhtg3-1", "f"],
       MustNewConstMetric humDesc .GaugeValue 0 ["shellyhtg3-1", "%"],
       MustNewConstMetric batDesc .GaugeValue 0 ["shellyhtg3-1", "V"],
       MustNewConstMetric batDesc .GaugeValue 0 ["shellyhtg3-1", "%"],
       MustNewConstMetric upDesc .GaugeValue 1 [""]] ∧
    Collect exampleLib
        (messageLoopStep exampleLib exampleRetained ⟨"shellyhtg3-1/status", examplePayload⟩) =
      [MustNewConstMetric upDesc .GaugeValue 1 [""]] := by
  refine ⟨by decide, by decide, by decide, by decide⟩

/-- Claim C9 as amended.  The goroutine filters on the payload, not on the
topic: a message whose `method` is not `NotifyFullStatus` is ignored
whatever its topic, the retained message and the next scrape being
unchanged; a message whose `method` is `NotifyFullStatus` becomes the
retained message whatever its topic, and when its topic does not end in
`/rpc` the next scrape sends no data metric, only `shellyhtgen3_up` with
value 1. -/
theorem method_filter {F : Type} [Zero F] [One F] [IntCast F] (lib : Lib F) (c : Collector)
    (msg : mqtt.Message) :
    (lib.gjsonMethod msg.payload ≠ "NotifyFullStatus" →
      messageLoopStep lib c msg = c ∧ Collect lib (messageLoopStep lib c msg) = Collect lib c) ∧
    (lib.gjsonMethod msg.payload = "NotifyFullStatus" →
      (messageLoopStep lib c msg).lastMSG = { topic := msg.topic, msg := msg } ∧
      (strings.HasSuffix msg.topic "/rpc" = false →
        Collect lib (messageLoopStep lib c msg) =
          [MustNewConstMetric upDesc .GaugeValue 1 [""]])) := by
  constructor
  · intro h
    have : messageLoopStep lib c msg = c := by simp [messageLoopStep, h]
    exact ⟨this, by rw [this]⟩
  · intro h
    have hl : (messageLoopStep lib c msg).lastMSG = { topic := msg.topic, msg := msg } := by
      simp [messageLoopStep, h]
    refine ⟨hl, ?_⟩
    intro hs
    simp [Collect, collect, hl, hs]

theorem method_filter_witness :
    (exampleLib.gjsonMethod "\x7b\x7d" ≠ "NotifyFullStatus" ∧
      messageLoopStep exampleLib exampleRetained ⟨"shellyhtg3-1/status", "\x7b\x7d"⟩
        = exampleRetained) ∧
    (exampleLib.gjsonMethod examplePayload = "NotifyFullStatus" ∧
      strings.HasSuffix "shellyhtg3-1/status" "/rpc" = false ∧
      (messageLoopStep exampleLib exampleRetained
        ⟨"shellyhtg3-1/status", examplePayload⟩).lastMSG =
        { topic := "shellyhtg3-1/status", msg := ⟨"shellyhtg3-1/status", examplePayload⟩ } ∧
      Collect exampleLib
          (messageLoopStep exampleLib exampleRetained ⟨"shellyhtg3-1/status", examplePayload⟩) =
        [MustNewConstMetric upDesc .GaugeValue 1 [""]]) :=
  ⟨⟨by decide,
      ((method_filter exampleLib exampleRetained ⟨"shellyhtg3-1/status", "\x7b\x7d"⟩).1
        (by decide)).1⟩,
    by decide, by decide,
    ((method_filter exampleLib exampleRetained ⟨"shellyhtg3-1/status", examplePayload⟩).2
      (by decide)).1,
    ((method_filter exampleLib exampleRetained ⟨"shellyhtg3-1/status", examplePayload⟩).2
      (by decide)).2 (by decide)⟩

/-- Every metric of a scrape has as many label values as its descriptor has
labels. -/
theorem gen3_Collect_label_count {F : Type} [Zero F] [One F] [IntCast F] (lib : Lib F)
    (c : Collector) :
    ∀ m ∈ Collect lib c, m.labelValues.length = m.desc.variableLabels.length := by
  intro m hm
  unfold Collect collect at hm
  split_ifs at hm
  · cases hu : lib.jsonUnmarshal c.lastMSG.msg.payload with
    | error e =>
      simp only [hu, List.nil_append, List.mem_singleton] at hm
      subst hm; rfl
    | ok info =>
      simp only [hu] at hm
      split_ifs at hm
      · simp only [List.nil_append, List.mem_singleton] at hm
        subst hm; rfl
      · simp only [List.cons_append, List.nil_append, List.mem_cons, List.mem_singleton,
          List.not_mem_nil, or_false] at hm
        rcases hm with rfl | rfl | rfl | rfl | rfl | rfl <;> rfl
  · simp only [List.nil_append, List.mem_singleton] at hm
    subst hm; rfl

/-- Claim C13, enveloped-RPC skip.  When the retained topic ends in `/rpc`
and the payload decodes to an envelope whose method is not
`NotifyFullStatus`, `collect` sends nothing and returns no error, and the
scrape is the single metric `shellyhtgen3_up` with value 1 and empty status.
This is the scrape of a freshly constructed collector, whose placeholder has
the topic `shellies/null/rpc` and the payload `{}`, decoded to the zero
`Event`. -/
theorem enveloped_rpc_skip {F : Type} [Zero F] [One F] [IntCast F] (lib : Lib F) :
    (∀ (c : Collector) (info : Event F),
      strings.HasSuffix c.lastMSG.msg.topic "/rpc" = true →
      lib.jsonUnmarshal c.lastMSG.msg.payload = .ok info →
      info.Method ≠ "NotifyFullStatus" →
      collect lib c = ([], none) ∧
      Collect lib c = [MustNewConstMetric upDesc .GaugeValue 1 [""]]) ∧
    (lib.jsonUnmarshal "\x7b\x7d" = .ok Event.zero →
      NewCollector.lastMSG.msg = { topic := "shellies/null/rpc", payload := "\x7b\x7d" } ∧
      collect lib NewCollector = ([], none) ∧
      Collect lib NewCollector = [MustNewConstMetric upDesc .GaugeValue 1 [""]]) := by
  have key : ∀ (c : Collector) (info : Event F),
      strings.HasSuffix c.lastMSG.msg.topic "/rpc" = true →
      lib.jsonUnmarshal c.lastMSG.msg.payload = .ok info →
      info.Method ≠ "NotifyFullStatus" →
      collect lib c = ([], none) ∧
      Collect lib c = [MustNewConstMetric upDesc .GaugeValue 1 [""]] := by
    intro c info hs hu hm
    have hc : collect lib c = ([], none) := by
      simp only [collect, hs, if_true, hu, hm, ne_eq, not_false_eq_true]
    exact ⟨hc, by simp only [Collect, hc, List.nil_append]⟩
  refine ⟨key, ?_⟩
  intro h0
  have hm : (Event.zero : Event F).Method ≠ "NotifyFullStatus" := by
    show ("" : String) ≠ "NotifyFullStatus"
    decide
  have := key NewCollector Event.zero (by decide) h0 hm
  exact ⟨rfl, this.1, this.2⟩

theorem enveloped_rpc_skip_witness :
    (strings.HasSuffix "shellyhtg3-1/events/rpc" "/rpc" = true ∧
      exampleLib.jsonUnmarshal "\x7b\x7d" = .ok Event.zero ∧
      (Event.zero : Event Int).Method ≠ "NotifyFullStatus") ∧
    Collect exampleLib
        { lastMSG := { topic := "shellyhtg3-1/events/rpc",
                       msg := ⟨"shellyhtg3-1/events/rpc", "\x7b\x7d"⟩ } } =
      [MustNewConstMetric upDesc .GaugeValue 1 [""]] ∧
    Collect exampleLib NewCollector = [MustNewConstMetric upDesc .GaugeValue 1 [""]] :=
  ⟨⟨by decide, rfl, by decide⟩,
    ((enveloped_rpc_skip exampleLib).1
      { lastMSG := { topic := "shellyhtg3-1/events/rpc",
                     msg := ⟨"shellyhtg3-1/events/rpc", "\x7b\x7d"⟩ } }
      Event.zero (by decide) rfl (by decide)).2,
    ((enveloped_rpc_skip exampleLib).2 rfl).2.2⟩

end htgen3
